import Mathlib

/-!
Verification of the session extraction and normalization pipeline of the
agent-orchestrator daemon.

The TypeScript sources are embedded shallowly:

* JavaScript `Date` values are modelled by their millisecond-since-epoch
  value (`Nat`); `Date.prototype.toISOString` is modelled by `isoString`,
  which renders an instant in the canonical `YYYY-MM-DDTHH:MM:SS.sssZ`
  form using the proleptic Gregorian calendar (the same algorithm JS
  engines use, restricted to instants at or after the Unix epoch, which
  is the range the pipeline produces).
* `new Date(string)` is modelled by `parseIso8601`, covering the
  ISO-8601 UTC forms the pipeline's data uses (date-only, and date-time
  with a trailing `Z`, seconds and milliseconds optional); strings
  outside this family are modelled as unparseable.
* JavaScript truthiness of the optional string/number fields the code
  tests with `if (x)` / `x || y` is modelled explicitly (`none`, the
  empty string and the number 0 are falsy).
* `parseInt(s, 10)` is modelled by `jsParseInt`: leading whitespace is
  skipped, an optional sign and then the longest leading digit run are
  consumed, and the call fails only when no digit is found.
* `JSON.parse` of an untrusted line or row is external input; a line is
  therefore modelled as `Option R` where `R` is the record shape the
  reader declares: `none` models a line whose `JSON.parse` throws.
* The MD5 digest used by `generateDeterministicUUID` is implemented in
  full (RFC 1321) on byte lists, with strings encoded in UTF-8.
-/

/-! ### Calendar and ISO-8601 rendering -/

/-- Civil date (year, month, day) of a day count since 1970-01-01
(Gregorian, days ≥ 0). -/
def civilFromDays (z : Nat) : Nat × Nat × Nat :=
  let z' := z + 719468
  let era := z' / 146097
  let doe := z' % 146097
  let yoe := (doe - doe / 1460 + doe / 36524 - doe / 146096) / 365
  let y := yoe + era * 400
  let doy := doe - (365 * yoe + yoe / 4 - yoe / 100)
  let mp := (5 * doy + 2) / 153
  let d := doy - (153 * mp + 2) / 5 + 1
  let m := if mp < 10 then mp + 3 else mp - 9
  (if m ≤ 2 then y + 1 else y, m, d)

/-- Day count since 1970-01-01 of a civil date (y ≥ 1970). -/
def daysFromCivil (y m d : Nat) : Nat :=
  let y' := if m ≤ 2 then y - 1 else y
  let era := y' / 400
  let yoe := y' % 400
  let doy := (153 * (if 2 < m then m - 3 else m + 9) + 2) / 5 + d - 1
  let doe := yoe * 365 + yoe / 4 - yoe / 100 + doy
  era * 146097 + doe - 719468

def pad2 (n : Nat) : String :=
  (if n < 10 then "0" else "") ++ toString n

def pad3 (n : Nat) : String :=
  (if n < 10 then "00" else if n < 100 then "0" else "") ++ toString n

def pad4 (n : Nat) : String :=
  (if n < 10 then "000" else if n < 100 then "00" else if n < 1000 then "0" else "") ++ toString n

/-- Model of `Date.prototype.toISOString` for an instant given in
milliseconds since the Unix epoch. -/
def isoString (ms : Nat) : String :=
  let q := ms / 1000
  let days := q / 86400
  let rem := q % 86400
  let c := civilFromDays days
  pad4 c.1 ++ "-" ++ pad2 c.2.1 ++ "-" ++ pad2 c.2.2 ++ "T" ++
    pad2 (rem / 3600) ++ ":" ++ pad2 (rem % 3600 / 60) ++ ":" ++ pad2 (rem % 60) ++
    "." ++ pad3 (ms % 1000) ++ "Z"

/-- Year component of an instant (milliseconds since epoch). -/
def isoYear (ms : Nat) : Nat :=
  (civilFromDays (ms / 1000 / 86400)).1

def isLeapYear (y : Nat) : Bool :=
  y % 4 = 0 && (y % 100 ≠ 0 || y % 400 = 0)

def daysInMonth (y m : Nat) : Nat :=
  if m = 2 then (if isLeapYear y then 29 else 28)
  else if m = 4 ∨ m = 6 ∨ m = 9 ∨ m = 11 then 30
  else 31

def digitVal (c : Char) : Option Nat :=
  if c.isDigit then some (c.toNat - 48) else none

def read2 (a b : Char) : Option Nat := do
  let x ← digitVal a
  let y ← digitVal b
  pure (x * 10 + y)

def read4 (a b c d : Char) : Option Nat := do
  let x ← read2 a b
  let y ← read2 c d
  pure (x * 100 + y)

/-- Parse the time-of-day / timezone tail of an ISO-8601 string, returning
milliseconds into the day. -/
def parseIsoTail : List Char → Option Nat
  | [] => some 0
  | 'T' :: h1 :: h2 :: ':' :: m1 :: m2 :: rest => do
    let h ← read2 h1 h2
    let mi ← read2 m1 m2
    if h ≤ 23 ∧ mi ≤ 59 then
      let base := (h * 3600 + mi * 60) * 1000
      match rest with
      | ['Z'] => pure base
      | ':' :: s1 :: s2 :: rest2 => do
        let se ← read2 s1 s2
        if se ≤ 59 then
          match rest2 with
          | ['Z'] => pure (base + se * 1000)
          | '.' :: a :: b :: c :: ['Z'] => do
            let f ← digitVal a
            let g ← digitVal b
            let k ← digitVal c
            pure (base + se * 1000 + f * 100 + g * 10 + k)
          | _ => none
        else none
      | _ => none
    else none
  | _ => none

/-- Model of `new Date(s)` restricted to the ISO-8601 UTC family used by
the pipeline's data (years 1970–9999): returns the instant in
milliseconds since epoch, or `none` for an unparseable string (JS
`Invalid Date`). -/
def parseIso8601 (s : String) : Option Nat :=
  match s.toList with
  | y1 :: y2 :: y3 :: y4 :: '-' :: m1 :: m2 :: '-' :: d1 :: d2 :: rest => do
    let y ← read4 y1 y2 y3 y4
    let mo ← read2 m1 m2
    let d ← read2 d1 d2
    if 1970 ≤ y ∧ 1 ≤ mo ∧ mo ≤ 12 ∧ 1 ≤ d ∧ d ≤ daysInMonth y mo then
      let tail ← parseIsoTail rest
      pure (daysFromCivil y mo d * 86400000 + tail)
    else none
  | _ => none

/-! ### Timestamp normalization (`cursor-reader.ts`, `normalizeTimestamp`) -/

/-- A raw timestamp value as stored in source artifacts: a JSON string or
a JSON number. -/
inductive TsPrim
  | str (s : String)
  | num (n : Int)
deriving DecidableEq

/-- JS truthiness of an optional string/number value (`undefined`, `''`
and `0` are falsy). -/
def jsFalsyTs : Option TsPrim → Bool
  | none => true
  | some (.str s) => s = ""
  | some (.num n) => n = 0

/-- Model of the JS expression `a || b` on raw timestamp values. -/
def jsOrTs (a b : Option TsPrim) : Option TsPrim :=
  if jsFalsyTs a then b else a

/-- Model of `parseInt(s, 10)`: skip leading whitespace, optional sign,
then the longest leading digit run; fails iff no digit is found. -/
def jsParseInt (s : String) : Option Int :=
  let core : List Char → Option Nat := fun cs =>
    let ds := cs.takeWhile Char.isDigit
    if ds.isEmpty then none
    else some (ds.foldl (fun a c => a * 10 + (c.toNat - 48)) 0)
  let cs := s.toList.dropWhile (fun c => c = ' ' ∨ c = '\t' ∨ c = '\n' ∨ c = '\r')
  match cs with
  | '-' :: rest => (core rest).map (fun n => -(n : Int))
  | '+' :: rest => (core rest).map (fun n => (n : Int))
  | rest => (core rest).map (fun n => (n : Int))

/-- The numeric tail of `normalizeTimestamp`: the three-tier
plausibility heuristic on a numeric timestamp. -/
def normalizeNum (now : Nat) (n : Int) : String :=
  if 946684800000 < n then isoString n.toNat
  else if 946684800 < n then isoString (n * 1000).toNat
  else isoString now

/-- The ISO branch of `normalizeTimestamp`: `new Date(s)` followed by
`toISOString()`, with the wall-clock fallback for an invalid date. -/
def normalizeIsoBranch (now : Nat) (s : String) : String :=
  match parseIso8601 s with
  | some m => isoString m
  | none => isoString now

/-- The string branch of `normalizeTimestamp`: `parseInt` first; only
when it yields no positive number is the date parse attempted. -/
def normalizeStr (now : Nat) (s : String) : String :=
  match jsParseInt s with
  | some n => if 0 < n then normalizeNum now n else normalizeIsoBranch now s
  | none => normalizeIsoBranch now s

/-- `normalizeTimestamp` from `cursor-reader.ts`. `now` is the extraction
wall-clock instant used by `new Date()`. -/
def normalizeTimestamp (now : Nat) (t : Option TsPrim) : String :=
  if jsFalsyTs t then isoString now
  else
    match t with
    | none => isoString now
    | some (.num n) => normalizeNum now n
    | some (.str s) => normalizeStr now s

/-! ### MD5 (RFC 1321) and the deterministic UUID
(`cursor-reader.ts`, `generateDeterministicUUID`) -/

/-- The 64 MD5 round constants `K[i] = floor(abs(sin(i+1)) * 2^32)`. -/
def md5K : List Nat := [
  3614090360, 3905402710, 606105819, 3250441966, 4118548399, 1200080426, 2821735955, 4249261313,
  1770035416, 2336552879, 4294925233, 2304563134, 1804603682, 4254626195, 2792965006, 1236535329,
  4129170786, 3225465664, 643717713, 3921069994, 3593408605, 38016083, 3634488961, 3889429448,
  568446438, 3275163606, 4107603335, 1163531501, 2850285829, 4243563512, 1735328473, 2368359562,
  4294588738, 2272392833, 1839030562, 4259657740, 2763975236, 1272893353, 4139469664, 3200236656,
  681279174, 3936430074, 3572445317, 76029189, 3654602809, 3873151461, 530742520, 3299628645,
  4096336452, 1126891415, 2878612391, 4237533241, 1700485571, 2399980690, 4293915773, 2240044497,
  1873313359, 4264355552, 2734768916, 1309151649, 4149444226, 3174756917, 718787259, 3951481745]

/-- The MD5 per-round left-rotation amounts. -/
def md5S : List Nat := [
  7, 12, 17, 22, 7, 12, 17, 22, 7, 12, 17, 22, 7, 12, 17, 22,
  5, 9, 14, 20, 5, 9, 14, 20, 5, 9, 14, 20, 5, 9, 14, 20,
  4, 11, 16, 23, 4, 11, 16, 23, 4, 11, 16, 23, 4, 11, 16, 23,
  6, 10, 15, 21, 6, 10, 15, 21, 6, 10, 15, 21, 6, 10, 15, 21]

/-- 32-bit complement (for `x < 2^32`). -/
def mnot (x : Nat) : Nat := 4294967295 - x

/-- 32-bit left rotation. -/
def rotl32 (x n : Nat) : Nat :=
  ((x <<< n) ||| (x >>> (32 - n))) % 4294967296

/-- Little-endian 32-bit word at index `g` of a 64-byte chunk. -/
def mword (chunk : List Nat) (g : Nat) : Nat :=
  chunk.getD (4 * g) 0 + 256 * chunk.getD (4 * g + 1) 0 +
    65536 * chunk.getD (4 * g + 2) 0 + 16777216 * chunk.getD (4 * g + 3) 0

/-- One MD5 compression step over a 64-byte chunk. -/
def md5Step (chunk : List Nat) (st : Nat × Nat × Nat × Nat) : Nat × Nat × Nat × Nat :=
  let r := (List.range 64).foldl (fun (t : Nat × Nat × Nat × Nat) i =>
    let a := t.1
    let b := t.2.1
    let c := t.2.2.1
    let d := t.2.2.2
    let fg : Nat × Nat :=
      if i < 16 then ((b &&& c) ||| (mnot b &&& d), i)
      else if i < 32 then ((b &&& d) ||| (c &&& mnot d), (5 * i + 1) % 16)
      else if i < 48 then (b ^^^ c ^^^ d, (3 * i + 5) % 16)
      else (c ^^^ (b ||| mnot d), (7 * i) % 16)
    let f := (fg.1 + a + md5K.getD i 0 + mword chunk fg.2) % 4294967296
    (d, (b + rotl32 f (md5S.getD i 0)) % 4294967296, b, c)) st
  ((st.1 + r.1) % 4294967296, (st.2.1 + r.2.1) % 4294967296,
   (st.2.2.1 + r.2.2.1) % 4294967296, (st.2.2.2 + r.2.2.2) % 4294967296)

/-- The 8-byte little-endian rendering of the 64-bit bit length. -/
def leBytes8 (n : Nat) : List Nat :=
  (List.range 8).map (fun i => n / 256 ^ i % 256)

/-- MD5 padding: append `0x80`, zeros to 56 mod 64, then the bit length. -/
def md5Pad (msg : List Nat) : List Nat :=
  msg ++ 128 :: List.replicate ((119 - msg.length % 64) % 64) 0 ++
    leBytes8 (msg.length * 8 % 18446744073709551616)

/-- Little-endian byte rendering of a 32-bit word. -/
def wordLE (w : Nat) : List Nat :=
  [w % 256, w / 256 % 256, w / 65536 % 256, w / 16777216 % 256]

/-- The 16-byte MD5 digest of a byte list. -/
def md5Bytes (msg : List Nat) : List Nat :=
  let padded := md5Pad msg
  let st := (List.range (padded.length / 64)).foldl
    (fun st i => md5Step ((padded.drop (64 * i)).take 64) st)
    (1732584193, 4023233417, 2562383102, 271733878)
  wordLE st.1 ++ wordLE st.2.1 ++ wordLE st.2.2.1 ++ wordLE st.2.2.2

/-- UTF-8 encoding of one character. -/
def utf8Char (c : Char) : List Nat :=
  let n := c.toNat
  if n < 128 then [n]
  else if n < 2048 then [192 + n / 64, 128 + n % 64]
  else if n < 65536 then [224 + n / 4096, 128 + n / 64 % 64, 128 + n % 64]
  else [240 + n / 262144, 128 + n / 4096 % 64, 128 + n / 64 % 64, 128 + n % 64]

/-- UTF-8 bytes of a string. -/
def strBytes (s : String) : List Nat :=
  s.toList.foldr (fun c acc => utf8Char c ++ acc) []

/-- Lower-case hexadecimal digit. -/
def hexChar (n : Nat) : Char :=
  Char.ofNat (if n < 10 then 48 + n else 87 + n)

/-- Two-digit lower-case hexadecimal rendering of one byte. -/
def byteHex (b : Nat) : List Char :=
  [hexChar (b / 16 % 16), hexChar (b % 16)]

/-- Model of `createHash('md5').update(input).digest('hex')`. -/
def md5Hex (s : String) : String :=
  String.mk ((md5Bytes (strBytes s)).foldr (fun b acc => byteHex b ++ acc) [])

/-- Model of `s.substring(a, b)` (for `a ≤ b ≤ s.length`). -/
def jsSubstring (s : String) (a b : Nat) : String :=
  String.mk ((s.toList.drop a).take (b - a))

/-- `generateDeterministicUUID` from `cursor-reader.ts`. -/
def generateDeterministicUUID (input : String) : String :=
  let hash := md5Hex input
  jsSubstring hash 0 8 ++ "-" ++ jsSubstring hash 8 12 ++ "-4" ++
    jsSubstring hash 13 16 ++ "-" ++ jsSubstring hash 16 20 ++ "-" ++
    jsSubstring hash 20 32

/-! ### String utilities (executable models of the JS string operations
used by the readers) -/

/-- Whitespace for trimming (the characters the pipeline's data uses). -/
def isWsChar (c : Char) : Bool :=
  c = ' ' ∨ c = '\t' ∨ c = '\n' ∨ c = '\r'

/-- Model of `String.prototype.trim`. -/
def strTrim (s : String) : String :=
  String.mk (((s.toList.dropWhile isWsChar).reverse.dropWhile isWsChar).reverse)

/-- Whether `suf` is a suffix of `s` (JS `endsWith`). -/
def strEndsWith (s suf : String) : Bool :=
  suf.toList.length ≤ s.toList.length &&
    s.toList.drop (s.toList.length - suf.toList.length) == suf.toList

/-- Split a character list on a separator character (JS
`split(sep)` semantics: `n` separators yield `n + 1` chunks). -/
def splitOnChar (sep : Char) : List Char → List (List Char)
  | [] => [[]]
  | c :: rest =>
    let r := splitOnChar sep rest
    if c = sep then [] :: r
    else
      match r with
      | [] => [[c]]
      | g :: gs => (c :: g) :: gs

/-- Model of `s.split(sep)` for a one-character separator. -/
def strSplitOn (s : String) (sep : Char) : List String :=
  (splitOnChar sep s.toList).map String.mk

/-- Lexicographic comparison of character lists (JS `<` on strings). -/
def charListLt : List Char → List Char → Bool
  | [], [] => false
  | [], _ :: _ => true
  | _ :: _, [] => false
  | a :: as, b :: bs =>
    if a < b then true
    else if b < a then false
    else charListLt as bs

/-- Model of the JS `<` comparison on strings (code-unit lexicographic;
the pipeline compares only ASCII ISO timestamps with it). -/
def strLt (a b : String) : Bool :=
  charListLt a.toList b.toList

/-! ### Claude Code reader (`claude-code-reader.ts`) -/

/-- One element of a `message.content` value: a plain string part, a JSON
object part (with its optional `type` and `text` fields), or a
null/other part. -/
inductive JsPart
  | str (s : String)
  | obj (type : Option String) (text : Option String)
  | nullPart
deriving DecidableEq

/-- A `message.content` value: an array of parts or a single non-array
value (the code wraps the latter in a one-element array). -/
inductive JsContent
  | arr (parts : List JsPart)
  | single (p : JsPart)
deriving DecidableEq

/-- JS truthiness of `data.message?.content` (arrays and objects are
truthy, `''` and `null` are falsy). -/
def contentTruthy : Option JsContent → Bool
  | none => false
  | some (.arr _) => true
  | some (.single (.str s)) => !(s = "")
  | some (.single (.obj _ _)) => true
  | some (.single .nullPart) => false

/-- One successfully `JSON.parse`d line of a `.jsonl` session file, with
the fields `parseSessionFile` reads. `content` models
`data.message?.content` (`none` when `message` or its `content` is
absent). -/
structure JsonlLine where
  type : Option String
  content : Option JsContent
  timestamp : Option TsPrim
  sessionId : Option String
  summary : Option String
deriving DecidableEq

/-- Canonical chat turn as assembled by the readers (`pastedContents` is
always the empty mapping and is omitted). -/
structure ChatMessage where
  display : String
  role : String
  timestamp : String
deriving DecidableEq

/-- Canonical session record (`ChatHistory`), with the metadata fields
the reader writes flattened in. -/
structure ChatHistory where
  id : String
  timestamp : String
  messages : List ChatMessage
  agentType : String
  projectPath : String
  projectName : Option String
  summary : Option String
deriving DecidableEq

/-- `toString` of a raw timestamp value (JS number rendering restricted
to integers). -/
def tsToString : TsPrim → String
  | .str s => s
  | .num n => toString n

/-- The string `data.timestamp?.toString() || ''` of a line. -/
def lineTsString (d : JsonlLine) : String :=
  match d.timestamp with
  | none => ""
  | some p => tsToString p

/-- The display text a content part contributes, if any: a plain string
part is used as-is; an object part is used iff its `type` is `"text"`
and its `text` field is truthy. -/
def partText : JsPart → Option String
  | .str s => some s
  | .obj ty tx =>
    match tx with
    | some x => if ty = some "text" ∧ x ≠ "" then some x else none
    | none => none
  | .nullPart => none

/-- The part list of a content value (a non-array is wrapped). -/
def contentParts : JsContent → List JsPart
  | .arr ps => ps
  | .single p => [p]

/-- The messages one user/assistant record contributes: one message per
textual part, in order. -/
def partMessages (role ts : String) (ps : List JsPart) : List ChatMessage :=
  ps.filterMap (fun p => (partText p).map (fun txt => ⟨txt, role, ts⟩))

/-- Accumulator of the per-line loop in `parseSessionFile` (`""` plays
the role of JS `null` for the timestamp accumulators, as both are
falsy). -/
structure PState where
  messages : List ChatMessage
  sessionId : String
  firstTs : String
  lastTs : String
  summary : String
deriving DecidableEq

/-- The role a line's `type` field selects, if any. -/
def lineRole (d : JsonlLine) : Option String :=
  if d.type = some "user" then some "user"
  else if d.type = some "assistant" then some "assistant"
  else none

/-- One iteration of the per-line loop of `parseSessionFile`; a `none`
line (a line whose `JSON.parse` throws) is skipped. -/
def processLine (nowIso : String) (st : PState) (l : Option JsonlLine) : PState :=
  match l with
  | none => st
  | some d =>
    let sum' := match d.type, d.summary with
      | some t, some s => if t = "summary" ∧ s ≠ "" then s else st.summary
      | _, _ => st.summary
    let sid' := match d.sessionId with
      | some s => if s ≠ "" then s else st.sessionId
      | none => st.sessionId
    match lineRole d with
    | some role =>
      if contentTruthy d.content then
        let ts := lineTsString d
        { messages := st.messages ++
            partMessages role (if ts ≠ "" then ts else nowIso)
              (contentParts (d.content.getD (.arr [])))
          sessionId := sid'
          firstTs := if st.firstTs = "" then ts else st.firstTs
          lastTs := ts
          summary := sum' }
      else { st with sessionId := sid', summary := sum' }
    | none => { st with sessionId := sid', summary := sum' }

/-- Strip a suffix from a string if present (JS `path.basename(p, ext)`
on a plain file name). -/
def stripSuffix (s suf : String) : String :=
  if strEndsWith s suf then String.mk (s.toList.take (s.length - suf.length)) else s

/-- Last `/`-separated segment of a path (JS `path.basename`). -/
def basename (p : String) : String :=
  ((strSplitOn p '/').getLastD p)

/-- `parseSessionFile` from `claude-code-reader.ts`. `sessionFileBase`
is the file name with the `.jsonl` extension stripped (the default
session id); `lines` are the file's nonempty trimmed lines, each paired
with its `JSON.parse` outcome; `now` is the extraction wall-clock
instant. -/
def parseSessionFile (sessionFileBase projectPath : String)
    (lines : List (Option JsonlLine)) (now : Nat) : Option ChatHistory :=
  if lines.isEmpty then none
  else
    let st := lines.foldl (processLine (isoString now))
      ⟨[], sessionFileBase, "", "", ""⟩
    let pn := if projectPath ≠ "" then basename projectPath else ""
    some {
      id := st.sessionId
      timestamp :=
        if st.lastTs ≠ "" then st.lastTs
        else if st.firstTs ≠ "" then st.firstTs
        else isoString now
      messages := st.messages
      agentType := "claude_code"
      projectPath := projectPath
      projectName := if pn ≠ "" then some pn else none
      summary := if st.summary ≠ "" then some st.summary else none }

/-- One `.jsonl` session file inside a project directory. -/
structure SessionFile where
  name : String
  mtime : Nat
  lines : List (Option JsonlLine)
deriving DecidableEq

/-- One directory under `~/.claude/projects` (non-directory entries are
skipped by the reader and are not modelled). -/
structure ProjectDir where
  dirName : String
  files : List SessionFile
deriving DecidableEq

/-- Recover a project path from a directory name: the leading dash and
every other dash are replaced by a slash. -/
def dirNameToPath (d : String) : String :=
  String.mk (d.toList.map (fun c => if c = '-' then '/' else c))

/-- `readChatHistories` from `claude-code-reader.ts`, over the directory
listing it scans. `cutoff` is the modification-time cutoff derived from
`lookbackDays` (`none` when no lookback is given). -/
def readChatHistories (dirs : List ProjectDir) (cutoff : Option Nat)
    (now : Nat) : List ChatHistory :=
  dirs.flatMap (fun dir =>
    let pp := dirNameToPath dir.dirName
    dir.files.filterMap (fun f =>
      if strEndsWith f.name ".jsonl" then
        if (match cutoff with | some c => decide (f.mtime < c) | none => false) then none
        else
          match parseSessionFile (stripSuffix f.name ".jsonl") pp f.lines now with
          | some h => if 0 < h.messages.length then some h else none
          | none => none
      else none))

/-! ### Cursor reader (`cursor-reader.ts`) -/

/-- A node of the rich-text document tree (`children` is `[]` when the
field is absent or empty, which the traversal treats identically). -/
inductive RichNode
  | node (text : Option String) (children : List RichNode)

mutual

/-- Pre-order collection of the truthy `text` fields of a rich-text
tree. -/
def richNodeTexts : RichNode → List String
  | .node t cs =>
    (match t with
     | some s => if s ≠ "" then [s] else []
     | none => []) ++ richNodeTextsList cs

/-- Pre-order collection over a forest of rich-text nodes. -/
def richNodeTextsList : List RichNode → List String
  | [] => []
  | c :: rest => richNodeTexts c ++ richNodeTextsList rest

end

/-- A `richText` payload: the raw serialized string together with the
outcome of `JSON.parse` (`some children` iff parsing succeeds and
`data.root?.children` is present). -/
structure RichText where
  raw : String
  parsed : Option (List RichNode)

/-- `parseRichText` from `cursor-reader.ts`: join all leaf texts with a
single space, degrading to the raw input when the tree is unusable. -/
def parseRichText (rt : RichText) : String :=
  match rt.parsed with
  | some children => String.intercalate " " (richNodeTextsList children)
  | none => rt.raw

/-- One bubble record, with the fields the reader uses. -/
structure BubbleData where
  type : Option Int
  bubbleId : String
  text : Option String
  richText : Option RichText
  createdAt : Option TsPrim
  modelName : Option String

/-- Role of a bubble: type code 1 is the user, anything else the
assistant. -/
def bubbleRole (b : BubbleData) : String :=
  if b.type = some 1 then "user" else "assistant"

/-- Display content of a bubble: `text` if truthy, else the parsed
`richText` if truthy. -/
def bubbleContent (b : BubbleData) : String :=
  let c := b.text.getD ""
  if c = "" then
    match b.richText with
    | some rt => if rt.raw ≠ "" then parseRichText rt else c
    | none => c
  else c

/-- One normalized Cursor message. -/
structure CursorMessage where
  id : String
  role : String
  content : String
  timestamp : String
  composerId : Option String
  bubbleId : Option String
  sessionId : Option String
  modelName : Option String
deriving DecidableEq

/-- One normalized Cursor conversation (metadata flattened in). -/
structure CursorConversation where
  id : String
  timestamp : String
  messages : List CursorMessage
  conversationType : String
  workspace : Option String
  workspaceId : Option String
  projectName : Option String
  projectPath : Option String
  conversationName : Option String
  source : String
deriving DecidableEq

/-- A file/folder selection in a composer's context. -/
structure Selection where
  fsPath : Option String
deriving DecidableEq

/-- The `context` object of a composer. -/
structure ComposerContext where
  fileSelections : Option (List Selection)
  folderSelections : Option (List Selection)
deriving DecidableEq

/-- One composer record (its id is carried as the map key; the reader
overwrites `composerId` from the row key anyway). -/
structure ComposerData where
  conversation : Option (List BubbleData)
  createdAt : Option TsPrim
  lastUpdatedAt : Option TsPrim
  workspace : Option String
  name : Option String
  context : Option ComposerContext

/-- The result of `extractProjectInfo`. -/
structure ProjectInfoResult where
  projectName : Option String
  projectPath : Option String
  conversationName : Option String
deriving DecidableEq

/-- The `Developer`-segment heuristic: split a path on `/`, find the
first `Developer` segment; if a following segment exists, that segment
is the project name and the path up to and including it is the project
path. -/
def devProject (p : String) : Option (String × String) :=
  let parts := strSplitOn p '/'
  let i := parts.indexOf "Developer"
  if i + 1 < parts.length then
    some (parts.getD (i + 1) "", String.intercalate "/" (parts.take (i + 2)))
  else none

/-- First selection with a truthy `fsPath` that matches the
`Developer` heuristic (non-matching selections are passed over). -/
def firstSelMatch : List Selection → Option (String × String)
  | [] => none
  | s :: rest =>
    match s.fsPath with
    | some p =>
      if p ≠ "" then
        match devProject p with
        | some r => some r
        | none => firstSelMatch rest
      else firstSelMatch rest
    | none => firstSelMatch rest

/-- `extractProjectInfo` from `cursor-reader.ts`: file selections are
tried first; folder selections are consulted only when no truthy
project name was found. -/
def extractProjectInfo (cd : ComposerData) : ProjectInfoResult :=
  let convName : Option String := match cd.name with
    | some n => if n ≠ "" then some n else none
    | none => none
  let fileSels := match cd.context with
    | some ctx => ctx.fileSelections.getD []
    | none => []
  let r1 := firstSelMatch fileSels
  let nameFalsy : Bool := match r1 with
    | some (n, _) => n = ""
    | none => true
  let folderSels := match cd.context with
    | some ctx => ctx.folderSelections.getD []
    | none => []
  let r2 := if nameFalsy then firstSelMatch folderSels else none
  match r2 with
  | some (n, p) => ⟨some n, some p, convName⟩
  | none =>
    match r1 with
    | some (n, p) => ⟨some n, some p, convName⟩
    | none => ⟨none, none, convName⟩

/-- JS `Map.set` on an insertion-ordered association list: an existing
key keeps its position and gets the new value. -/
def mapSet {α : Type} (m : List (String × α)) (k : String) (v : α) : List (String × α) :=
  if m.any (fun kv => kv.1 == k) then
    m.map (fun kv => if kv.1 == k then (k, v) else kv)
  else m ++ [(k, v)]

/-- Append a value to the list held at a key (creating the entry at the
end when absent). -/
def mapAppend {α : Type} (m : List (String × List α)) (k : String) (v : α) : List (String × List α) :=
  if m.any (fun kv => kv.1 == k) then
    m.map (fun kv => if kv.1 == k then (kv.1, kv.2 ++ [v]) else kv)
  else m ++ [(k, [v])]

/-- JS `map.get(k) || []`. -/
def mapGet {α : Type} (m : List (String × List α)) (k : String) : List α :=
  ((m.find? (fun kv => kv.1 == k)).map (fun kv => kv.2)).getD []

/-- `readComposersFromCursorDiskKV`: one row per `composerData:` key
(the key suffix after the prefix is the composer id); a row whose value
fails to `JSON.parse` is skipped. -/
def readComposersFromCursorDiskKV
    (rows : List (String × Option ComposerData)) : List (String × ComposerData) :=
  rows.foldl (fun m row =>
    match row.2 with
    | some cd => mapSet m row.1 cd
    | none => m) []

/-- A composer entry of the ItemTable `composer.composerData` blob. -/
structure ItemComposer where
  composerId : Option String
  name : Option String
  createdAt : Option TsPrim
  lastUpdatedAt : Option TsPrim
  workspace : Option String
deriving DecidableEq

/-- `readComposersFromItemTable`: the new format stores only metadata,
so every composer is recorded with an empty `conversation`. `row` is
`none` when the row is missing or its value fails to parse into an
`allComposers` array. -/
def readComposersFromItemTable
    (row : Option (List ItemComposer)) : List (String × ComposerData) :=
  match row with
  | none => []
  | some lst => lst.foldl (fun m c =>
      match c.composerId with
      | some cid =>
        if cid ≠ "" then
          mapSet m cid
            { conversation := some []
              createdAt := c.createdAt
              lastUpdatedAt := c.lastUpdatedAt
              workspace := c.workspace
              name := c.name
              context := none }
        else m
      | none => m) []

/-- Split a `bubbleId:{composerId}:{bubbleId}` key on `:` and return the
second and third chunks when both are truthy. -/
def bubbleKeyParts (key : String) : Option (String × String) :=
  let parts := strSplitOn key ':'
  if 3 ≤ parts.length then
    let cid := parts.getD 1 ""
    let bid := parts.getD 2 ""
    if cid ≠ "" ∧ bid ≠ "" then some (cid, bid) else none
  else none

/-- Group bubble rows by composer id (insertion-ordered); malformed
rows are skipped. -/
def buildBubbleMap
    (rows : List (String × Option BubbleData)) : List (String × List BubbleData) :=
  rows.foldl (fun m row =>
    match row.2 with
    | some bd =>
      match bubbleKeyParts row.1 with
      | some (cid, bid) => mapAppend m cid { bd with bubbleId := bid }
      | none => m
    | none => m) []

/-- The bubble list one composer uses: the inline `conversation` array
when nonempty, else the separate bubble entries. -/
def composerBubbles (bubbleMap : List (String × List BubbleData))
    (cid : String) (cd : ComposerData) : List BubbleData :=
  let c := cd.conversation.getD []
  if c.isEmpty then mapGet bubbleMap cid else c

/-- The message one bubble contributes (skipped when its content is
blank); `startTs` is the normalized composer-level `createdAt`. -/
def bubbleMessage (cid startTs : String) (b : BubbleData) : Option CursorMessage :=
  let content := bubbleContent b
  if strTrim content = "" then none
  else some {
    id := b.bubbleId
    role := bubbleRole b
    content := content
    timestamp := startTs
    composerId := some cid
    bubbleId := some b.bubbleId
    sessionId := none
    modelName := b.modelName }

/-- The conversation one composer contributes, if any (the body of the
conversation-building loop of `readCursorHistories`). -/
def composerConv (bubbleMap : List (String × List BubbleData)) (now : Nat)
    (cid : String) (cd : ComposerData) : Option CursorConversation :=
  let messages := (composerBubbles bubbleMap cid cd).filterMap
    (bubbleMessage cid (normalizeTimestamp now cd.createdAt))
  if messages.isEmpty then none
  else
    let pi := extractProjectInfo cd
    some {
      id := cid
      timestamp := normalizeTimestamp now (jsOrTs cd.lastUpdatedAt cd.createdAt)
      messages := messages
      conversationType := "composer"
      workspace := cd.workspace
      workspaceId := none
      projectName := pi.projectName
      projectPath := pi.projectPath
      conversationName := pi.conversationName
      source := "cursor-composer" }

def buildConversations (composers : List (String × ComposerData))
    (bubbleMap : List (String × List BubbleData)) (now : Nat) : List CursorConversation :=
  composers.filterMap (fun kv => composerConv bubbleMap now kv.1 kv.2)

/-- One response part of a Copilot request. -/
structure RespPart where
  value : Option String
deriving DecidableEq

/-- One Copilot request. -/
structure CopilotRequest where
  messageText : Option String
  response : Option (List RespPart)
  timestamp : Option TsPrim
deriving DecidableEq

/-- One element of the `interactive.sessions` array. -/
structure CopilotSession where
  requests : Option (List CopilotRequest)
deriving DecidableEq

/-- One workspace directory with a readable database and
`workspace.json`; `sessions` is `none` when the `interactive.sessions`
row is missing, fails to parse, or is not an array. -/
structure WorkspaceEntry where
  workspaceId : String
  folder : Option String
  sessions : Option (List CopilotSession)
deriving DecidableEq

/-- The user half of one iteration of the Copilot message-assembly
loop: append a user message when `request.message?.text` is truthy. -/
def copilotUserStep (sessionId : String) (now : Nat)
    (msgs : List CursorMessage) (req : CopilotRequest) : List CursorMessage :=
  match req.messageText with
  | some t =>
    if t ≠ "" then
      msgs ++ [{
        id := sessionId ++ "-user-" ++ toString msgs.length
        role := "user"
        content := t
        timestamp := normalizeTimestamp now (jsOrTs req.timestamp (some (.num now)))
        composerId := none
        bubbleId := none
        sessionId := some sessionId
        modelName := none }]
    else msgs
  | none => msgs

/-- The assistant half of one iteration of the Copilot loop: join the
nonblank response-part values with newlines and append an assistant
message when the result is nonempty. -/
def copilotRespStep (sessionId : String) (now : Nat)
    (msgs : List CursorMessage) (req : CopilotRequest) : List CursorMessage :=
  match req.response with
  | some parts =>
    let responseText := String.intercalate "\n"
      ((parts.map (fun p => p.value.getD "")).filter (fun t => strTrim t != ""))
    if responseText ≠ "" then
      msgs ++ [{
        id := sessionId ++ "-assistant-" ++ toString msgs.length
        role := "assistant"
        content := responseText
        timestamp := normalizeTimestamp now (jsOrTs req.timestamp (some (.num now)))
        composerId := none
        bubbleId := none
        sessionId := some sessionId
        modelName := none }]
    else msgs
  | none => msgs

/-- One iteration of the message-assembly loop over a Copilot session's
requests; the running message count is embedded in the generated
per-message ids. -/
def copilotStep (sessionId : String) (now : Nat)
    (msgs : List CursorMessage) (req : CopilotRequest) : List CursorMessage :=
  copilotRespStep sessionId now (copilotUserStep sessionId now msgs req) req

/-- The message-assembly loop over one Copilot session's requests. -/
def copilotMessages (sessionId : String) (now : Nat)
    (reqs : List CopilotRequest) : List CursorMessage :=
  reqs.foldl (copilotStep sessionId now) []

/-- Project name and path a Copilot session gets from its truthy
workspace folder via the `Developer` heuristic. -/
def copilotProj (folder : Option String) : Option String × Option String :=
  match folder with
  | some f =>
    if f ≠ "" then
      match devProject f with
      | some np => (some np.1, some np.2)
      | none => (none, none)
    else (none, none)
  | none => (none, none)

/-- The conversation one element of the `interactive.sessions` array
contributes, if any (the body of the per-session loop of
`readCopilotSessions`); `i` is the session's index in the array. -/
def copilotConv (w : WorkspaceEntry) (now i : Nat) (sd : CopilotSession) : Option CursorConversation :=
  let sessionId := generateDeterministicUUID (w.workspaceId ++ "-session-" ++ toString i)
  match sd.requests with
  | none => none
  | some reqs =>
    let messages := copilotMessages sessionId now reqs
    if messages.isEmpty then none
    else
      match messages.getLast? with
      | none => none
      | some lastMessage =>
        some {
          id := sessionId
          timestamp := lastMessage.timestamp
          messages := messages
          conversationType := "copilot"
          workspace := w.folder
          workspaceId := some w.workspaceId
          projectName := (copilotProj w.folder).1
          projectPath := (copilotProj w.folder).2
          conversationName := none
          source := "cursor-copilot" }

/-- `readCopilotSessions` from `cursor-reader.ts`, over the workspace
entries it scans. -/
def readCopilotSessions (workspaces : List WorkspaceEntry) (now : Nat) : List CursorConversation :=
  workspaces.flatMap (fun w =>
    match w.sessions with
    | none => []
    | some sess => sess.enum.filterMap (fun iv => copilotConv w now iv.1 iv.2))

/-- The two storage-layout variants of the Cursor state database. -/
inductive StorageFormat
  | cursorDiskKV
  | itemTable
deriving DecidableEq

/-- `readCursorHistories` from `cursor-reader.ts`, after variant
detection: composer conversations from the detected variant, with the
Copilot sessions appended. Bubble rows are only consulted in the legacy
`cursorDiskKV` variant. -/
def readCursorHistories (format : StorageFormat)
    (composerRows : List (String × Option ComposerData))
    (itemRow : Option (List ItemComposer))
    (bubbleRows : List (String × Option BubbleData))
    (workspaces : List WorkspaceEntry) (now : Nat) : List CursorConversation :=
  let composers := match format with
    | .itemTable => readComposersFromItemTable itemRow
    | .cursorDiskKV => readComposersFromCursorDiskKV composerRows
  let bubbleMap := match format with
    | .cursorDiskKV => buildBubbleMap bubbleRows
    | .itemTable => []
  buildConversations composers bubbleMap now ++ readCopilotSessions workspaces now

/-! ### Project aggregation
(`cursor-reader.ts`, `extractProjectsFromConversations`;
`project-aggregator.ts`, `mergeProjects`) -/

/-- JS `Set.add` on an insertion-ordered deduplicated list. -/
def setAdd (l : List String) (x : String) : List String :=
  if l.contains x then l else l ++ [x]

/-- Per-path accumulator of `extractProjectsFromConversations`.
`lastActivity` is the JS `Date` object: `some` carries the instant in
milliseconds, `none` models an Invalid Date (`NaN`). -/
structure ProjAcc where
  name : String
  path : String
  workspaceIds : List String
  composerCount : Nat
  copilotSessionCount : Nat
  lastActivity : Option Nat
deriving DecidableEq

/-- Aggregated per-project record (`ProjectInfo` of `cursor-reader.ts`).
`lastActivity` is `none` when `toISOString()` would throw on an
invalid accumulated date. -/
structure ProjectInfo where
  name : String
  path : String
  workspaceIds : List String
  composerCount : Nat
  copilotSessionCount : Nat
  lastActivity : Option String
deriving DecidableEq

/-- The per-conversation update of the accumulator: add the workspace
id to the set if truthy, bump the count of the conversation's type, and
take the later activity date (comparisons against an invalid date are
false, as in JS). -/
def updateAcc (acc : ProjAcc) (conv : CursorConversation) : ProjAcc :=
  let acc1 := match conv.workspaceId with
    | some w => if w ≠ "" then { acc with workspaceIds := setAdd acc.workspaceIds w } else acc
    | none => acc
  let acc2 :=
    if conv.conversationType = "composer" then
      { acc1 with composerCount := acc1.composerCount + 1 }
    else if conv.conversationType = "copilot" then
      { acc1 with copilotSessionCount := acc1.copilotSessionCount + 1 }
    else acc1
  let newLast := match parseIso8601 conv.timestamp, acc2.lastActivity with
    | some c, some l => if l < c then some c else some l
    | _, _ => acc2.lastActivity
  { acc2 with lastActivity := newLast }

/-- One step of the aggregation loop: conversations without a truthy
project path and name are skipped; a new path gets a fresh accumulator
seeded with the conversation's date. -/
def projStep (m : List (String × ProjAcc)) (conv : CursorConversation) : List (String × ProjAcc) :=
  match conv.projectPath, conv.projectName with
  | some pp, some pn =>
    if pp ≠ "" ∧ pn ≠ "" then
      let m1 :=
        if m.any (fun kv => kv.1 == pp) then m
        else m ++ [(pp, ⟨pn, pp, [], 0, 0, parseIso8601 conv.timestamp⟩)]
      m1.map (fun kv => if kv.1 == pp then (kv.1, updateAcc kv.2 conv) else kv)
    else m
  | _, _ => m

/-- `extractProjectsFromConversations` from `cursor-reader.ts`. -/
def extractProjectsFromConversations (convs : List CursorConversation) : List ProjectInfo :=
  (convs.foldl projStep []).map (fun kv =>
    { name := kv.2.name
      path := kv.2.path
      workspaceIds := kv.2.workspaceIds
      composerCount := kv.2.composerCount
      copilotSessionCount := kv.2.copilotSessionCount
      lastActivity := kv.2.lastActivity.map isoString })

/-- The exported `ProjectInfo` interface of `cursor-reader.ts` as
consumed by `mergeProjects`. -/
structure CursorProjectInfo where
  name : String
  path : String
  workspaceIds : List String
  composerCount : Nat
  copilotSessionCount : Nat
  lastActivity : String
deriving DecidableEq

/-- The exported `ProjectInfo` interface of `claude-code-reader.ts`. -/
structure ClaudeProjectInfo where
  name : String
  path : String
  workspaceIds : List String
  claudeCodeSessionCount : Nat
  lastActivity : String
deriving DecidableEq

/-- `UnifiedProjectInfo` of `project-aggregator.ts`. -/
structure UnifiedProjectInfo where
  name : String
  path : String
  workspaceIds : List String
  composerCount : Nat
  copilotSessionCount : Nat
  claudeCodeSessionCount : Nat
  lastActivity : String
deriving DecidableEq

/-- `mergeProjects` from `project-aggregator.ts`: Cursor projects are
inserted first; a Claude Code project with the same path contributes
its session count and, when later (JS string comparison), its
`lastActivity`. -/
def mergeProjects (cursorProjects : List CursorProjectInfo)
    (claudeCodeProjects : List ClaudeProjectInfo) : List UnifiedProjectInfo :=
  let m0 : List (String × UnifiedProjectInfo) := cursorProjects.foldl (fun m p =>
    mapSet m p.path
      ⟨p.name, p.path, p.workspaceIds, p.composerCount, p.copilotSessionCount, 0, p.lastActivity⟩) []
  let m1 := claudeCodeProjects.foldl (fun m p =>
    if m.any (fun kv => kv.1 == p.path) then
      m.map (fun kv =>
        if kv.1 == p.path then
          (kv.1, { kv.2 with
            claudeCodeSessionCount := p.claudeCodeSessionCount
            lastActivity :=
              if strLt kv.2.lastActivity p.lastActivity then p.lastActivity
              else kv.2.lastActivity })
        else kv)
    else m ++ [(p.path, ⟨p.name, p.path, [], 0, 0, p.claudeCodeSessionCount, p.lastActivity⟩)]) m0
  m1.map (fun kv => kv.2)
/-- Whether a character is a lower-case hexadecimal digit. -/
def isHexDigitChar (c : Char) : Bool :=
  (48 ≤ c.toNat && c.toNat ≤ 57) || (97 ≤ c.toNat && c.toNat ≤ 102)

/-! ### Helper lemmas -/

theorem jsFalsyTs_str (s : String) (hs : ¬ s = "") : jsFalsyTs (some (.str s)) = false := by
  simp [jsFalsyTs, hs]

theorem jsFalsyTs_num (n : Int) (hn : ¬ n = 0) : jsFalsyTs (some (.num n)) = false := by
  simp [jsFalsyTs, hn]

theorem normalizeTimestamp_falsy (now : Nat) (t : Option TsPrim) (h : jsFalsyTs t = true) :
    normalizeTimestamp now t = isoString now := by
  unfold normalizeTimestamp
  rw [h, if_pos rfl]

theorem normalizeTimestamp_str (now : Nat) (s : String) (hs : ¬ s = "") :
    normalizeTimestamp now (some (.str s)) = normalizeStr now s := by
  unfold normalizeTimestamp
  rw [jsFalsyTs_str s hs]
  simp only [Bool.false_eq_true, if_false]

theorem normalizeTimestamp_num (now : Nat) (n : Int) (hn : ¬ n = 0) :
    normalizeTimestamp now (some (.num n)) = normalizeNum now n := by
  unfold normalizeTimestamp
  rw [jsFalsyTs_num n hn]
  simp only [Bool.false_eq_true, if_false]

theorem normalizeNum_ms (now : Nat) (n : Int) (h : 946684800000 < n) :
    normalizeNum now n = isoString n.toNat := by
  unfold normalizeNum
  rw [if_pos h]

theorem normalizeNum_sec (now : Nat) (n : Int) (h1 : 946684800 < n)
    (h2 : ¬ 946684800000 < n) :
    normalizeNum now n = isoString (n * 1000).toNat := by
  unfold normalizeNum
  rw [if_neg h2, if_pos h1]

theorem normalizeNum_small (now : Nat) (n : Int) (h2 : ¬ 946684800000 < n)
    (h1 : ¬ 946684800 < n) :
    normalizeNum now n = isoString now := by
  unfold normalizeNum
  rw [if_neg h2, if_neg h1]

theorem normalizeStr_posInt (now : Nat) (s : String) (n : Int)
    (h : jsParseInt s = some n) (hn : 0 < n) :
    normalizeStr now s = normalizeNum now n := by
  unfold normalizeStr
  rw [h]
  show (if 0 < n then normalizeNum now n else normalizeIsoBranch now s) = normalizeNum now n
  rw [if_pos hn]

theorem normalizeStr_nonPos (now : Nat) (s : String) (n : Int)
    (h : jsParseInt s = some n) (hn : ¬ 0 < n) :
    normalizeStr now s = normalizeIsoBranch now s := by
  unfold normalizeStr
  rw [h]
  show (if 0 < n then normalizeNum now n else normalizeIsoBranch now s) = normalizeIsoBranch now s
  rw [if_neg hn]

theorem normalizeStr_noInt (now : Nat) (s : String) (h : jsParseInt s = none) :
    normalizeStr now s = normalizeIsoBranch now s := by
  unfold normalizeStr
  rw [h]

/-! ### Theorems -/

/-- C2 (code bug evidence): `"2024-01-15T12:00:00Z"` parses as the ISO
instant 1705320000000, yet `normalizeTimestamp` returns the wall-clock
fallback for it: `parseInt` extracts the leading year `2024`, which is
below both plausibility thresholds, so the ISO branch of the function
is never reached for digit-leading ISO-8601 strings. -/
theorem normalizeTimestamp_iso_input_wallclock (now : Nat) :
    normalizeTimestamp now (some (.str "2024-01-15T12:00:00Z")) = isoString now ∧
    jsParseInt "2024-01-15T12:00:00Z" = some 2024 ∧
    parseIso8601 "2024-01-15T12:00:00Z" = some 1705320000000 := by
  refine ⟨?_, rfl, rfl⟩
  rw [normalizeTimestamp_str now _ (by decide),
    normalizeStr_posInt now "2024-01-15T12:00:00Z" 2024 rfl (by norm_num),
    normalizeNum_small now 2024 (by norm_num) (by norm_num)]

/-- C3: the numeric tiers of `normalizeTimestamp`: values above the
millisecond threshold are taken as milliseconds; values above the
second threshold but not above the millisecond threshold are scaled by
1000; anything smaller falls back to the wall clock; `1700000000`
(seconds) and `1700000000000` (milliseconds) normalize identically, to
an instant in 2023. -/
theorem normalizeTimestamp_unit_disambiguation (now : Nat) (n : Int) :
    (946684800000 < n → normalizeTimestamp now (some (.num n)) = isoString n.toNat) ∧
    (946684800 < n ∧ n ≤ 946684800000 →
      normalizeTimestamp now (some (.num n)) = isoString (n * 1000).toNat) ∧
    (n ≤ 946684800 → normalizeTimestamp now (some (.num n)) = isoString now) ∧
    normalizeTimestamp now (some (.num 1700000000)) =
      normalizeTimestamp now (some (.num 1700000000000)) ∧
    isoYear 1700000000000 = 2023 := by
  refine ⟨?_, ?_, ?_, ?_, by decide⟩
  · intro h
    rw [normalizeTimestamp_num now n (by omega), normalizeNum_ms now n h]
  · rintro ⟨h1, h2⟩
    rw [normalizeTimestamp_num now n (by omega),
      normalizeNum_sec now n h1 (by omega)]
  · intro h
    by_cases hn0 : n = 0
    · subst hn0
      exact normalizeTimestamp_falsy now _ rfl
    · rw [normalizeTimestamp_num now n hn0,
        normalizeNum_small now n (by omega) (by omega)]
  · rw [normalizeTimestamp_num now 1700000000 (by norm_num),
      normalizeTimestamp_num now 1700000000000 (by norm_num),
      normalizeNum_sec now 1700000000 (by norm_num) (by norm_num),
      normalizeNum_ms now 1700000000000 (by norm_num)]
    congr 1

/-- Witness for C3 at concrete inputs: 1700000000000 is interpreted as
milliseconds, 1700000000 is scaled to the same instant, and 42 falls
back to the wall clock. -/
theorem normalizeTimestamp_unit_disambiguation_witness :
    normalizeTimestamp 12345 (some (.num 1700000000000)) =
      isoString (Int.toNat 1700000000000) ∧
    normalizeTimestamp 12345 (some (.num 1700000000)) =
      isoString ((1700000000 : Int) * 1000).toNat ∧
    normalizeTimestamp 12345 (some (.num 42)) = isoString 12345 :=
  ⟨(normalizeTimestamp_unit_disambiguation 12345 1700000000000).1 (by norm_num),
   (normalizeTimestamp_unit_disambiguation 12345 1700000000).2.1 ⟨by norm_num, by norm_num⟩,
   (normalizeTimestamp_unit_disambiguation 12345 42).2.2.1 (by norm_num)⟩

theorem md5Bytes_length (msg : List Nat) : (md5Bytes msg).length = 16 := by
  simp [md5Bytes, wordLE]

theorem hexChar_isHex (n : Nat) (h : n < 16) : isHexDigitChar (hexChar n) = true := by
  interval_cases n <;> decide

theorem byteHex_isHex (b : Nat) : ∀ c ∈ byteHex b, isHexDigitChar c = true := by
  intro c hc
  simp only [byteHex, List.mem_cons, List.mem_singleton, List.not_mem_nil, or_false] at hc
  rcases hc with h | h
  · exact h ▸ hexChar_isHex _ (Nat.mod_lt _ (by norm_num))
  · exact h ▸ hexChar_isHex _ (Nat.mod_lt _ (by norm_num))

theorem md5Hex_toList (s : String) :
    (md5Hex s).toList = (md5Bytes (strBytes s)).foldr (fun b acc => byteHex b ++ acc) [] := rfl

theorem foldr_byteHex_length (l : List Nat) :
    (l.foldr (fun b acc => byteHex b ++ acc) ([] : List Char)).length = 2 * l.length := by
  induction l with
  | nil => simp
  | cons b rest ih =>
    rw [List.foldr_cons, List.length_append, ih]
    have hb : (byteHex b).length = 2 := by simp [byteHex]
    rw [hb, List.length_cons]
    omega

theorem foldr_byteHex_hex (l : List Nat) :
    ∀ c ∈ l.foldr (fun b acc => byteHex b ++ acc) ([] : List Char), isHexDigitChar c = true := by
  induction l with
  | nil => simp
  | cons b rest ih =>
    intro c hc
    simp only [List.foldr_cons, List.mem_append] at hc
    rcases hc with h | h
    · exact byteHex_isHex b c h
    · exact ih c h

theorem md5Hex_length (s : String) : (md5Hex s).toList.length = 32 := by
  rw [md5Hex_toList, foldr_byteHex_length, md5Bytes_length]

theorem generateDeterministicUUID_decomposition (s : String) :
    (generateDeterministicUUID s).toList =
      (md5Hex s).toList.take 8 ++ '-' :: ((md5Hex s).toList.drop 8).take 4 ++
      '-' :: '4' :: ((md5Hex s).toList.drop 13).take 3 ++
      '-' :: ((md5Hex s).toList.drop 16).take 4 ++
      '-' :: ((md5Hex s).toList.drop 20).take 12 := by
  simp [generateDeterministicUUID, jsSubstring, String.toList]

/-- C6 (counterexample): the variant nibble of the generated UUID — the
character at index 19, first of the fourth group — is not fixed: for
input `""` it is `'e'` and for input `"a"` it is `'3'`, neither of
which is one of the RFC 4122 variant digits 8, 9, a, b. -/
theorem generateDeterministicUUID_variant_unfixed :
    (generateDeterministicUUID "").toList.getD 19 ' ' = 'e' ∧
    (generateDeterministicUUID "a").toList.getD 19 ' ' = '3' ∧
    ¬ ('e' : Char) = '3' ∧
    ¬ ('e' : Char) ∈ ['8', '9', 'a', 'b'] ∧
    ¬ ('3' : Char) ∈ ['8', '9', 'a', 'b'] := by
  set_option maxRecDepth 10000 in
  exact ⟨by decide, by decide, by decide, by decide, by decide⟩

/-- C6 (amended): `generateDeterministicUUID` is deterministic, and its
output is the 8-4-4-4-12 grouping of the 32-character lower-case-hex
MD5 digest of the input, with the version nibble fixed to `'4'` (digest
nibble 12 is dropped for it); the fourth group — including the variant
position — is taken from the digest unchanged. -/
theorem generateDeterministicUUID_shape (s : String) :
    generateDeterministicUUID s = generateDeterministicUUID s ∧
    (md5Hex s).toList.length = 32 ∧
    (∀ c ∈ (md5Hex s).toList, isHexDigitChar c = true) ∧
    (generateDeterministicUUID s).toList =
      (md5Hex s).toList.take 8 ++ '-' :: ((md5Hex s).toList.drop 8).take 4 ++
      '-' :: '4' :: ((md5Hex s).toList.drop 13).take 3 ++
      '-' :: ((md5Hex s).toList.drop 16).take 4 ++
      '-' :: ((md5Hex s).toList.drop 20).take 12 ∧
    (generateDeterministicUUID s).toList.length = 36 := by
  refine ⟨rfl, md5Hex_length s, ?_, generateDeterministicUUID_decomposition s, ?_⟩
  · rw [md5Hex_toList]
    exact foldr_byteHex_hex _
  · rw [generateDeterministicUUID_decomposition s]
    have h32 : (md5Hex s).length = 32 := md5Hex_length s
    simp [List.length_append, List.length_take, List.length_drop, md5Hex_length s, h32]

theorem partMessages_displays (role time : String) (ps : List JsPart) :
    (partMessages role time ps).map (fun m => m.display) = ps.filterMap partText := by
  simp only [partMessages, List.map_filterMap]
  congr 1
  funext p
  cases partText p <;> rfl

/-- C7 (counterexample): a record whose content holds two textual parts
`"foo"` and `"bar"` yields two Messages (`["foo", "bar"]`), not one
Message with the concatenated text. -/
theorem parseSessionFile_two_text_parts_two_messages :
    (parseSessionFile "f" "" [some ⟨some "user",
        some (.arr [.obj (some "text") (some "foo"), .obj (some "text") (some "bar")]),
        none, none, none⟩] 0).map
      (fun h => h.messages.map (fun m => m.display)) = some ["foo", "bar"] ∧
    (parseSessionFile "f" "" [some ⟨some "user",
        some (.arr [.obj (some "text") (some "foo"), .obj (some "text") (some "bar")]),
        none, none, none⟩] 0).map (fun h => h.messages.length) = some 2 :=
  ⟨by decide, by decide⟩

/-- C7 (amended): for a record whose content is an ordered list of typed
parts, extraction emits one Message per textual part, in list order,
each carrying that part's text, and ignores non-textual parts; in
particular `[{type:"text", text:"hello"}, {type:"tool_use", ...}]`
yields exactly one Message with display text `"hello"`. -/
theorem parseSessionFile_one_message_per_text_part (f pp : String)
    (parts : List JsPart) (ts : Option TsPrim) (now : Nat) :
    (parseSessionFile f pp [some ⟨some "user", some (.arr parts), ts, none, none⟩] now).map
        (fun h => h.messages.map (fun m => m.display)) =
      some (parts.filterMap partText) ∧
    (parseSessionFile "f" "" [some ⟨some "user",
        some (.arr [.obj (some "text") (some "hello"), .obj (some "tool_use") none]),
        none, none, none⟩] 0).map
      (fun h => h.messages.map (fun m => m.display)) = some ["hello"] := by
  constructor
  · simp [parseSessionFile, processLine, lineRole, contentTruthy, contentParts,
      partMessages_displays]
  · decide

theorem processLine_none (nowIso : String) (st : PState) :
    processLine nowIso st none = st := rfl

/-- C5: skip-poison-record. Inserting one line whose `JSON.parse` throws
into a `.jsonl` artifact does not change the parse result, and parsing
still succeeds; likewise a malformed `composerData:` row is skipped
without affecting the sibling rows. -/
theorem skip_poison_record (f pp : String) (now : Nat)
    (xs ys : List (Option JsonlLine))
    (hne : ¬ (xs ++ ys).isEmpty = true)
    (hv : ∀ l ∈ xs ++ ys, l ≠ none)
    (rxs rys : List (String × Option ComposerData)) (k : String) :
    parseSessionFile f pp (xs ++ none :: ys) now = parseSessionFile f pp (xs ++ ys) now ∧
    (∃ h, parseSessionFile f pp (xs ++ none :: ys) now = some h) ∧
    readComposersFromCursorDiskKV (rxs ++ (k, none) :: rys) =
      readComposersFromCursorDiskKV (rxs ++ rys) := by
  have hfold : ∀ init : PState,
      List.foldl (processLine (isoString now)) init (xs ++ none :: ys) =
      List.foldl (processLine (isoString now)) init (xs ++ ys) := by
    intro init
    rw [List.foldl_append, List.foldl_cons, processLine_none, ← List.foldl_append]
  have hne2 : ¬ (xs ++ none :: ys).isEmpty = true := by
    cases xs <;> simp
  refine ⟨?_, ?_, ?_⟩
  · unfold parseSessionFile
    rw [if_neg hne, if_neg hne2, hfold]
  · unfold parseSessionFile
    rw [if_neg hne2]
    exact ⟨_, rfl⟩
  · unfold readComposersFromCursorDiskKV
    rw [List.foldl_append, List.foldl_cons, ← List.foldl_append]

/-- Witness for C5: a concrete two-line artifact with a poison line in
the middle parses identically to the artifact without it, and a poison
composer row is dropped. -/
theorem skip_poison_record_witness :
    parseSessionFile "f" "" ([some ⟨some "user", some (.single (.str "hi")), none, none, none⟩] ++
        none :: [some ⟨some "assistant", some (.single (.str "ok")), none, none, none⟩]) 0 =
      parseSessionFile "f" ""
        ([some ⟨some "user", some (.single (.str "hi")), none, none, none⟩] ++
          [some ⟨some "assistant", some (.single (.str "ok")), none, none, none⟩]) 0 ∧
    (∃ h, parseSessionFile "f" ""
        ([some ⟨some "user", some (.single (.str "hi")), none, none, none⟩] ++
          none :: [some ⟨some "assistant", some (.single (.str "ok")), none, none, none⟩]) 0 =
      some h) ∧
    readComposersFromCursorDiskKV ([("c1", some ⟨none, none, none, none, none, none⟩)] ++
        ("bad", none) :: []) =
      readComposersFromCursorDiskKV ([("c1", some ⟨none, none, none, none, none, none⟩)] ++ []) := by
  have := skip_poison_record "f" "" 0
    [some ⟨some "user", some (.single (.str "hi")), none, none, none⟩]
    [some ⟨some "assistant", some (.single (.str "ok")), none, none, none⟩]
    (by decide) (by decide)
    [("c1", some ⟨none, none, none, none, none, none⟩)] [] "bad"
  exact this

theorem firstSelMatch_none (sels : List Selection)
    (h : ∀ sel ∈ sels, ∀ p, sel.fsPath = some p → devProject p = none) :
    firstSelMatch sels = none := by
  induction sels with
  | nil => rfl
  | cons s rest ih =>
    have hrest : ∀ sel ∈ rest, ∀ p, sel.fsPath = some p → devProject p = none :=
      fun sel hs => h sel (List.mem_cons_of_mem _ hs)
    simp only [firstSelMatch]
    cases hp : s.fsPath with
    | none => exact ih hrest
    | some p =>
      show (if p ≠ "" then
          (match devProject p with
           | some r => some r
           | none => firstSelMatch rest)
        else firstSelMatch rest) = none
      rw [h s (List.mem_cons_self s rest) p hp]
      by_cases hpe : ¬ p = ""
      · rw [if_pos hpe]
        exact ih hrest
      · rw [if_neg hpe]
        exact ih hrest

theorem extractProjectInfo_none (cd : ComposerData)
    (hf : ∀ sel ∈ (match cd.context with
        | some ctx => ctx.fileSelections.getD []
        | none => []), ∀ p, sel.fsPath = some p → devProject p = none)
    (hd : ∀ sel ∈ (match cd.context with
        | some ctx => ctx.folderSelections.getD []
        | none => []), ∀ p, sel.fsPath = some p → devProject p = none) :
    (extractProjectInfo cd).projectName = none ∧
    (extractProjectInfo cd).projectPath = none := by
  simp only [extractProjectInfo]
  rw [firstSelMatch_none _ hf, firstSelMatch_none _ hd]
  simp

theorem copilotProj_none (folder : Option String)
    (h : ∀ f, folder = some f → devProject f = none) :
    copilotProj folder = (none, none) := by
  cases hf : folder with
  | none => rfl
  | some f =>
    unfold copilotProj
    show (if f ≠ "" then
        (match devProject f with
         | some np => (some np.1, some np.2)
         | none => (none, none))
      else (none, none)) = (none, none)
    rw [h f hf]
    by_cases hfe : ¬ f = ""
    · rw [if_pos hfe]
    · rw [if_neg hfe]

theorem copilotConv_project (w : WorkspaceEntry) (now i : Nat) (sd : CopilotSession)
    (conv : CursorConversation) (h : copilotConv w now i sd = some conv) :
    conv.projectName = (copilotProj w.folder).1 ∧
    conv.projectPath = (copilotProj w.folder).2 := by
  unfold copilotConv at h
  rcases hreq : sd.requests with _ | reqs
  · rw [hreq] at h; exact absurd h (by simp)
  · rw [hreq] at h
    dsimp only at h
    by_cases hm : (copilotMessages (generateDeterministicUUID
        (w.workspaceId ++ "-session-" ++ toString i)) now reqs).isEmpty
    · rw [if_pos hm] at h; exact absurd h (by simp)
    · rw [if_neg hm] at h
      rcases hl : (copilotMessages (generateDeterministicUUID
          (w.workspaceId ++ "-session-" ++ toString i)) now reqs).getLast? with _ | lm
      · rw [hl] at h; exact absurd h (by simp)
      · rw [hl] at h
        cases h
        exact ⟨rfl, rfl⟩

theorem readCopilotSessions_project_none (ws : List WorkspaceEntry) (now : Nat)
    (hw : ∀ w ∈ ws, ∀ f, w.folder = some f → devProject f = none) :
    ∀ conv ∈ readCopilotSessions ws now,
      conv.projectName = none ∧ conv.projectPath = none := by
  intro conv hconv
  simp only [readCopilotSessions, List.mem_flatMap] at hconv
  obtain ⟨w, hwmem, hconv⟩ := hconv
  rcases hsess : w.sessions with _ | sess
  · rw [hsess] at hconv
    simp at hconv
  · rw [hsess] at hconv
    simp only [List.mem_filterMap] at hconv
    obtain ⟨iv, _, heq⟩ := hconv
    have hfields := copilotConv_project w now iv.1 iv.2 conv heq
    have hproj := copilotProj_none w.folder (hw w hwmem)
    rw [hproj] at hfields
    exact hfields

/-- C8 (counterexample): project inference has no fallback. A composer
whose only candidate paths contain no `Developer` segment gets neither
a project name (no last-two-segments fallback) nor a project path; a
Copilot session whose workspace folder `/tmp/whatever/place` matches no
root gets neither field (no basename fallback). -/
theorem projectInference_no_fallback_counterexample :
    extractProjectInfo ⟨none, none, none, none, some "Chat",
        some ⟨some [⟨some "/home/u/stuff/proj/file.ts"⟩], some [⟨some "/home/u/stuff/proj"⟩]⟩⟩ =
      ⟨none, none, some "Chat"⟩ ∧
    (readCopilotSessions [⟨"ws1", some "/tmp/whatever/place",
        some [⟨some [⟨some "question", none, some (.num 1700000000000)⟩]⟩]⟩]
        1700000000000).map (fun c => (c.projectName, c.projectPath)) = [(none, none)] := by
  constructor
  · decide
  · set_option maxRecDepth 10000 in decide

/-- C8 (amended): when no candidate path (file selection, folder
selection, or workspace folder) yields a `Developer`-segment match,
project inference produces no project name and no project path at all —
there is no last-two-segments fallback and no folder-basename fallback. -/
theorem projectInference_absent_without_match (cd : ComposerData)
    (hf : ∀ sel ∈ (match cd.context with
        | some ctx => ctx.fileSelections.getD []
        | none => []), ∀ p, sel.fsPath = some p → devProject p = none)
    (hd : ∀ sel ∈ (match cd.context with
        | some ctx => ctx.folderSelections.getD []
        | none => []), ∀ p, sel.fsPath = some p → devProject p = none)
    (ws : List WorkspaceEntry) (now : Nat)
    (hw : ∀ w ∈ ws, ∀ f, w.folder = some f → devProject f = none) :
    (extractProjectInfo cd).projectName = none ∧
    (extractProjectInfo cd).projectPath = none ∧
    ∀ conv ∈ readCopilotSessions ws now,
      conv.projectName = none ∧ conv.projectPath = none :=
  ⟨(extractProjectInfo_none cd hf hd).1, (extractProjectInfo_none cd hf hd).2,
   readCopilotSessions_project_none ws now hw⟩

/-- Witness for C8 at a concrete composer and workspace without any
`Developer` match: both project fields come out absent. -/
theorem projectInference_absent_without_match_witness :
    (extractProjectInfo ⟨none, none, none, none, some "Chat",
        some ⟨some [⟨some "/home/u/code/proj/file.ts"⟩], none⟩⟩).projectName = none ∧
    (extractProjectInfo ⟨none, none, none, none, some "Chat",
        some ⟨some [⟨some "/home/u/code/proj/file.ts"⟩], none⟩⟩).projectPath = none ∧
    ∀ conv ∈ readCopilotSessions [⟨"ws2", some "/srv/data/place", none⟩] 0,
      conv.projectName = none ∧ conv.projectPath = none := by
  refine projectInference_absent_without_match _ ?_ ?_ _ 0 ?_
  · intro sel hsel p hp
    simp only [Option.getD] at hsel
    rw [List.mem_singleton] at hsel
    subst hsel
    cases hp
    decide
  · intro sel hsel p hp
    simp at hsel
  · intro w hw f hf
    rw [List.mem_singleton] at hw
    subst hw
    cases hf
    decide

theorem composerConv_inv (bubbleMap : List (String × List BubbleData)) (now : Nat)
    (cid : String) (cd : ComposerData) (conv : CursorConversation)
    (h : composerConv bubbleMap now cid cd = some conv) :
    conv.id = cid ∧
    conv.timestamp = normalizeTimestamp now (jsOrTs cd.lastUpdatedAt cd.createdAt) ∧
    conv.messages = (composerBubbles bubbleMap cid cd).filterMap
      (bubbleMessage cid (normalizeTimestamp now cd.createdAt)) ∧
    ¬ conv.messages.isEmpty = true ∧
    conv.conversationType = "composer" := by
  unfold composerConv at h
  dsimp only at h
  by_cases hm : ((composerBubbles bubbleMap cid cd).filterMap
      (bubbleMessage cid (normalizeTimestamp now cd.createdAt))).isEmpty
  · rw [if_pos hm] at h; exact absurd h (by simp)
  · rw [if_neg hm] at h
    cases h
    exact ⟨rfl, rfl, rfl, hm, rfl⟩

theorem copilotConv_inv (w : WorkspaceEntry) (now i : Nat) (sd : CopilotSession)
    (conv : CursorConversation) (h : copilotConv w now i sd = some conv) :
    ∃ reqs, sd.requests = some reqs ∧
      conv.messages = copilotMessages
        (generateDeterministicUUID (w.workspaceId ++ "-session-" ++ toString i)) now reqs ∧
      ¬ conv.messages.isEmpty = true ∧
      ∃ lm, conv.messages.getLast? = some lm ∧ conv.timestamp = lm.timestamp := by
  unfold copilotConv at h
  rcases hreq : sd.requests with _ | reqs
  · rw [hreq] at h; exact absurd h (by simp)
  · rw [hreq] at h
    dsimp only at h
    by_cases hm : (copilotMessages (generateDeterministicUUID
        (w.workspaceId ++ "-session-" ++ toString i)) now reqs).isEmpty
    · rw [if_pos hm] at h; exact absurd h (by simp)
    · rw [if_neg hm] at h
      rcases hl : (copilotMessages (generateDeterministicUUID
          (w.workspaceId ++ "-session-" ++ toString i)) now reqs).getLast? with _ | lm
      · rw [hl] at h; exact absurd h (by simp)
      · rw [hl] at h
        cases h
        exact ⟨reqs, rfl, rfl, hm, lm, hl, rfl⟩

theorem buildConversations_nonempty (composers : List (String × ComposerData))
    (bubbleMap : List (String × List BubbleData)) (now : Nat) :
    ∀ conv ∈ buildConversations composers bubbleMap now, ¬ conv.messages = [] := by
  intro conv hconv
  simp only [buildConversations, List.mem_filterMap] at hconv
  obtain ⟨kv, _, heq⟩ := hconv
  have hinv := composerConv_inv bubbleMap now kv.1 kv.2 conv heq
  intro hcontra
  exact hinv.2.2.2.1 (by rw [hcontra]; rfl)

theorem readCopilotSessions_nonempty (ws : List WorkspaceEntry) (now : Nat) :
    ∀ conv ∈ readCopilotSessions ws now, ¬ conv.messages = [] := by
  intro conv hconv
  simp only [readCopilotSessions, List.mem_flatMap] at hconv
  obtain ⟨w, _, hconv⟩ := hconv
  rcases hsess : w.sessions with _ | sess
  · rw [hsess] at hconv; simp at hconv
  · rw [hsess] at hconv
    simp only [List.mem_filterMap] at hconv
    obtain ⟨iv, _, heq⟩ := hconv
    obtain ⟨reqs, _, _, hne, _⟩ := copilotConv_inv w now iv.1 iv.2 conv heq
    intro hcontra
    exact hne (by rw [hcontra]; rfl)

theorem readChatHistories_nonempty (dirs : List ProjectDir) (cutoff : Option Nat) (now : Nat) :
    ∀ h ∈ readChatHistories dirs cutoff now, ¬ h.messages = [] := by
  intro h hmem
  simp only [readChatHistories, List.mem_flatMap, List.mem_filterMap] at hmem
  obtain ⟨dir, _, f, _, heq⟩ := hmem
  by_cases h1 : strEndsWith f.name ".jsonl"
  case neg => rw [if_neg (by simpa using h1)] at heq; exact absurd heq (by simp)
  rw [if_pos (by simpa using h1)] at heq
  have hrest : ∀ heq2 : (match parseSessionFile (stripSuffix f.name ".jsonl")
        (dirNameToPath dir.dirName) f.lines now with
      | some h2 => if 0 < h2.messages.length then some h2 else none
      | none => none) = some h, ¬ h.messages = [] := by
    intro heq2
    rcases hp : parseSessionFile (stripSuffix f.name ".jsonl")
        (dirNameToPath dir.dirName) f.lines now with _ | h'
    · rw [hp] at heq2; exact absurd heq2 (by simp)
    · rw [hp] at heq2
      change (if 0 < h'.messages.length then some h' else none) = some h at heq2
      by_cases h3 : 0 < h'.messages.length
      · rw [if_pos h3] at heq2
        cases heq2
        intro hcontra
        rw [hcontra] at h3
        simp at h3
      · rw [if_neg h3] at heq2; exact absurd heq2 (by simp)
  rcases cutoff with _ | c
  · rw [if_neg (by simp)] at heq
    exact hrest heq
  · by_cases h2 : f.mtime < c
    · rw [if_pos (by simpa using h2)] at heq
      exact absurd heq (by simp)
    · rw [if_neg (by simpa using h2)] at heq
      exact hrest heq

/-- C4: no pipeline ever emits a session with an empty message list:
`readChatHistories`, `readCursorHistories` (either storage variant, the
Copilot sessions included) and `readCopilotSessions` all drop a
conversation whose message list is empty after extraction. -/
theorem no_empty_session_invariant (dirs : List ProjectDir) (cutoff : Option Nat)
    (now : Nat) (fmt : StorageFormat) (cr : List (String × Option ComposerData))
    (ir : Option (List ItemComposer)) (br : List (String × Option BubbleData))
    (ws : List WorkspaceEntry) :
    (∀ h ∈ readChatHistories dirs cutoff now, ¬ h.messages = []) ∧
    (∀ conv ∈ readCursorHistories fmt cr ir br ws now, ¬ conv.messages = []) ∧
    (∀ conv ∈ readCopilotSessions ws now, ¬ conv.messages = []) := by
  refine ⟨readChatHistories_nonempty dirs cutoff now, ?_, readCopilotSessions_nonempty ws now⟩
  intro conv hconv
  unfold readCursorHistories at hconv
  rw [List.mem_append] at hconv
  rcases hconv with hc | hc
  · exact buildConversations_nonempty _ _ now conv hc
  · exact readCopilotSessions_nonempty ws now conv hc

/-- Witness for C4: concrete single-session inputs for all three
pipelines, each yielding a session whose message list is nonempty. -/
theorem no_empty_session_invariant_witness :
    ¬ (⟨"s", "1970-01-01T00:00:00.000Z", [⟨"hi", "user", "1970-01-01T00:00:00.000Z"⟩],
        "claude_code", "/a/b", some "b", none⟩ : ChatHistory).messages = [] ∧
    ¬ (⟨"c1", "2023-11-14T22:13:20.500Z",
        [⟨"b1", "user", "hi", "2023-11-14T22:13:20.000Z", some "c1", some "b1", none, none⟩],
        "composer", none, none, none, none, none,
        "cursor-composer"⟩ : CursorConversation).messages = [] := by
  constructor
  · exact (no_empty_session_invariant
      [⟨"-a-b", [⟨"s.jsonl", 7, [some ⟨some "user", some (.single (.str "hi")), none, none, none⟩]⟩]⟩]
      none 0 .cursorDiskKV [] none [] []).1
      ⟨"s", "1970-01-01T00:00:00.000Z", [⟨"hi", "user", "1970-01-01T00:00:00.000Z"⟩],
        "claude_code", "/a/b", some "b", none⟩ (by decide)
  · exact (no_empty_session_invariant [] none 5 .cursorDiskKV
      [("c1", some ⟨some [⟨some 1, "b1", some "hi", none, none, none⟩],
        some (.num 1700000000000), some (.num 1700000000500), none, none, none⟩)]
      none [] []).2.1
      ⟨"c1", "2023-11-14T22:13:20.500Z",
        [⟨"b1", "user", "hi", "2023-11-14T22:13:20.000Z", some "c1", some "b1", none, none⟩],
        "composer", none, none, none, none, none, "cursor-composer"⟩ (by decide)

theorem bubbleMessage_some (cid ts : String) (b : BubbleData) (msg : CursorMessage)
    (h : bubbleMessage cid ts b = some msg) : msg.timestamp = ts := by
  unfold bubbleMessage at h
  dsimp only at h
  by_cases hc : strTrim (bubbleContent b) = ""
  · rw [if_pos hc] at h; exact absurd h (by simp)
  · rw [if_neg hc] at h
    cases h
    rfl

/-- C10: in the legacy composer path, every message of one conversation
carries the identical timestamp — the normalized composer-level
`createdAt` — regardless of per-bubble `createdAt` values, while the
conversation's own timestamp is the normalized `lastUpdatedAt` falling
back (under JS truthiness) to `createdAt`. -/
theorem composer_uniform_message_timestamps (composers : List (String × ComposerData))
    (bubbleMap : List (String × List BubbleData)) (now : Nat) :
    ∀ conv ∈ buildConversations composers bubbleMap now,
      ∃ cd, (conv.id, cd) ∈ composers ∧
        (∀ msg ∈ conv.messages, msg.timestamp = normalizeTimestamp now cd.createdAt) ∧
        conv.timestamp = normalizeTimestamp now (jsOrTs cd.lastUpdatedAt cd.createdAt) ∧
        (∀ m1 ∈ conv.messages, ∀ m2 ∈ conv.messages, m1.timestamp = m2.timestamp) := by
  intro conv hconv
  simp only [buildConversations, List.mem_filterMap] at hconv
  obtain ⟨kv, hkv, heq⟩ := hconv
  obtain ⟨hid, hts, hmsgs, _, _⟩ := composerConv_inv bubbleMap now kv.1 kv.2 conv heq
  have hall : ∀ msg ∈ conv.messages,
      msg.timestamp = normalizeTimestamp now kv.2.createdAt := by
    intro msg hm
    rw [hmsgs] at hm
    rw [List.mem_filterMap] at hm
    obtain ⟨b, _, hb⟩ := hm
    exact bubbleMessage_some _ _ b msg hb
  refine ⟨kv.2, ?_, hall, hts, ?_⟩
  · rw [hid]
    exact Prod.mk.eta ▸ hkv
  · intro m1 h1 m2 h2
    rw [hall m1 h1, hall m2 h2]

/-- Witness for C10: a concrete composer whose bubble carries no
timestamp of its own; its message is stamped with the normalized
composer `createdAt` and the conversation with the normalized
`lastUpdatedAt`. -/
theorem composer_uniform_message_timestamps_witness :
    ∃ cd, (("c1" : String), cd) ∈
        [(("c1" : String), (⟨some [⟨some 1, "b1", some "hi", none, none, none⟩],
          some (.num 1700000000000), some (.num 1700000000500), none, none, none⟩ : ComposerData))] ∧
      (∀ msg ∈ [(⟨"b1", "user", "hi", "2023-11-14T22:13:20.000Z",
          some "c1", some "b1", none, none⟩ : CursorMessage)],
        msg.timestamp = normalizeTimestamp 5 cd.createdAt) ∧
      ("2023-11-14T22:13:20.500Z" : String) =
        normalizeTimestamp 5 (jsOrTs cd.lastUpdatedAt cd.createdAt) ∧
      (∀ m1 ∈ [(⟨"b1", "user", "hi", "2023-11-14T22:13:20.000Z",
          some "c1", some "b1", none, none⟩ : CursorMessage)],
        ∀ m2 ∈ [(⟨"b1", "user", "hi", "2023-11-14T22:13:20.000Z",
          some "c1", some "b1", none, none⟩ : CursorMessage)],
        m1.timestamp = m2.timestamp) :=
  composer_uniform_message_timestamps
    [("c1", ⟨some [⟨some 1, "b1", some "hi", none, none, none⟩],
      some (.num 1700000000000), some (.num 1700000000500), none, none, none⟩)] [] 5
    ⟨"c1", "2023-11-14T22:13:20.500Z",
      [⟨"b1", "user", "hi", "2023-11-14T22:13:20.000Z", some "c1", some "b1", none, none⟩],
      "composer", none, none, none, none, none, "cursor-composer"⟩ (by decide)

theorem normalizeNum_image (now : Nat) (n : Int) :
    ∃ m, normalizeNum now n = isoString m ∧ (m = now ∨ 946684800000 < m) := by
  by_cases h1 : 946684800000 < n
  · exact ⟨n.toNat, normalizeNum_ms now n h1, Or.inr (by omega)⟩
  · by_cases h2 : 946684800 < n
    · exact ⟨(n * 1000).toNat, normalizeNum_sec now n h2 h1, Or.inr (by omega)⟩
    · exact ⟨now, normalizeNum_small now n h1 h2, Or.inl rfl⟩

theorem normalizeIsoBranch_image (now : Nat) (s : String) :
    ∃ m, normalizeIsoBranch now s = isoString m ∧
      (m = now ∨ parseIso8601 s = some m) := by
  unfold normalizeIsoBranch
  cases hp : parseIso8601 s with
  | none => exact ⟨now, rfl, Or.inl rfl⟩
  | some m => exact ⟨m, rfl, Or.inr rfl⟩

theorem normalizeTimestamp_image (now : Nat) (t : Option TsPrim) :
    ∃ m, normalizeTimestamp now t = isoString m ∧
      (m = now ∨ 946684800000 < m ∨
        ∃ s, t = some (.str s) ∧ parseIso8601 s = some m) := by
  by_cases hf : jsFalsyTs t = true
  · exact ⟨now, normalizeTimestamp_falsy now t hf, Or.inl rfl⟩
  · match t with
    | none => exact ⟨now, normalizeTimestamp_falsy now none rfl, Or.inl rfl⟩
    | some (.num n) =>
      have hn : ¬ n = 0 := by
        intro hc
        exact hf (by simp [jsFalsyTs, hc])
      rw [normalizeTimestamp_num now n hn]
      obtain ⟨m, hm, hc⟩ := normalizeNum_image now n
      exact ⟨m, hm, hc.elim Or.inl (fun h => Or.inr (Or.inl h))⟩
    | some (.str s) =>
      have hs : ¬ s = "" := by
        intro hc
        exact hf (by simp [jsFalsyTs, hc])
      rw [normalizeTimestamp_str now s hs]
      cases hp : jsParseInt s with
      | some n =>
        by_cases hn : 0 < n
        · rw [normalizeStr_posInt now s n hp hn]
          obtain ⟨m, hm, hc⟩ := normalizeNum_image now n
          exact ⟨m, hm, hc.elim Or.inl (fun h => Or.inr (Or.inl h))⟩
        · rw [normalizeStr_nonPos now s n hp hn]
          obtain ⟨m, hm, hc⟩ := normalizeIsoBranch_image now s
          exact ⟨m, hm, hc.elim Or.inl (fun h => Or.inr (Or.inr ⟨s, rfl, h⟩))⟩
      | none =>
        rw [normalizeStr_noInt now s hp]
        obtain ⟨m, hm, hc⟩ := normalizeIsoBranch_image now s
        exact ⟨m, hm, hc.elim Or.inl (fun h => Or.inr (Or.inr ⟨s, rfl, h⟩))⟩

theorem copilotUserStep_mem (sid : String) (now : Nat) (msgs : List CursorMessage)
    (req : CopilotRequest) :
    ∀ msg ∈ copilotUserStep sid now msgs req,
      msg ∈ msgs ∨
        msg.timestamp = normalizeTimestamp now (jsOrTs req.timestamp (some (.num now))) := by
  intro msg hm
  unfold copilotUserStep at hm
  rcases hmt : req.messageText with _ | t
  · rw [hmt] at hm; exact Or.inl hm
  · rw [hmt] at hm
    dsimp only at hm
    by_cases ht : ¬ t = ""
    · rw [if_pos ht] at hm
      rw [List.mem_append, List.mem_singleton] at hm
      rcases hm with h | h
      · exact Or.inl h
      · subst h; exact Or.inr rfl
    · rw [if_neg ht] at hm; exact Or.inl hm

theorem copilotRespStep_mem (sid : String) (now : Nat) (msgs : List CursorMessage)
    (req : CopilotRequest) :
    ∀ msg ∈ copilotRespStep sid now msgs req,
      msg ∈ msgs ∨
        msg.timestamp = normalizeTimestamp now (jsOrTs req.timestamp (some (.num now))) := by
  intro msg hm
  unfold copilotRespStep at hm
  rcases hresp : req.response with _ | parts
  · rw [hresp] at hm; exact Or.inl hm
  · rw [hresp] at hm
    dsimp only at hm
    by_cases ht : ¬ String.intercalate "\n"
        ((parts.map (fun p => p.value.getD "")).filter (fun t => strTrim t != "")) = ""
    · rw [if_pos ht] at hm
      rw [List.mem_append, List.mem_singleton] at hm
      rcases hm with h | h
      · exact Or.inl h
      · subst h; exact Or.inr rfl
    · rw [if_neg ht] at hm; exact Or.inl hm

theorem copilotMessages_timestamps (sid : String) (now : Nat) (reqs : List CopilotRequest) :
    ∀ msg ∈ copilotMessages sid now reqs,
      ∃ t, msg.timestamp = normalizeTimestamp now t := by
  unfold copilotMessages
  suffices key : ∀ (rs : List CopilotRequest) (acc : List CursorMessage),
      (∀ msg ∈ acc, ∃ t, msg.timestamp = normalizeTimestamp now t) →
      ∀ msg ∈ rs.foldl (copilotStep sid now) acc, ∃ t, msg.timestamp = normalizeTimestamp now t by
    exact key reqs [] (by simp)
  intro rs
  induction rs with
  | nil => intro acc hacc; simpa using hacc
  | cons r rest ih =>
    intro acc hacc
    rw [List.foldl_cons]
    refine ih (copilotStep sid now acc r) ?_
    intro msg hm
    unfold copilotStep at hm
    rcases copilotRespStep_mem sid now _ r msg hm with h | h
    · rcases copilotUserStep_mem sid now acc r msg h with h2 | h2
      · exact hacc msg h2
      · exact ⟨_, h2⟩
    · exact ⟨_, h⟩

theorem readCursorHistories_timestamps (fmt : StorageFormat)
    (cr : List (String × Option ComposerData)) (ir : Option (List ItemComposer))
    (br : List (String × Option BubbleData)) (ws : List WorkspaceEntry) (now : Nat) :
    ∀ conv ∈ readCursorHistories fmt cr ir br ws now,
      (∃ m, conv.timestamp = isoString m) ∧
      ∀ msg ∈ conv.messages, ∃ m, msg.timestamp = isoString m := by
  intro conv hconv
  unfold readCursorHistories at hconv
  rw [List.mem_append] at hconv
  rcases hconv with hc | hc
  · simp only [buildConversations, List.mem_filterMap] at hc
    obtain ⟨kv, _, heq⟩ := hc
    obtain ⟨_, hts, hmsgs, _, _⟩ := composerConv_inv _ now kv.1 kv.2 conv heq
    constructor
    · obtain ⟨m, hm, _⟩ := normalizeTimestamp_image now (jsOrTs kv.2.lastUpdatedAt kv.2.createdAt)
      exact ⟨m, hts.trans hm⟩
    · intro msg hmm
      rw [hmsgs, List.mem_filterMap] at hmm
      obtain ⟨b, _, hb⟩ := hmm
      obtain ⟨m, hm, _⟩ := normalizeTimestamp_image now kv.2.createdAt
      exact ⟨m, (bubbleMessage_some _ _ b msg hb).trans hm⟩
  · simp only [readCopilotSessions, List.mem_flatMap] at hc
    obtain ⟨w, _, hc⟩ := hc
    rcases hsess : w.sessions with _ | sess
    · rw [hsess] at hc; simp at hc
    · rw [hsess] at hc
      simp only [List.mem_filterMap] at hc
      obtain ⟨iv, _, heq⟩ := hc
      obtain ⟨reqs, _, hmsgs, _, lm, hlast, hts⟩ := copilotConv_inv w now iv.1 iv.2 conv heq
      have hmsgts : ∀ msg ∈ conv.messages, ∃ m, msg.timestamp = isoString m := by
        intro msg hmm
        rw [hmsgs] at hmm
        obtain ⟨t, ht⟩ := copilotMessages_timestamps _ now reqs msg hmm
        obtain ⟨m, hm, _⟩ := normalizeTimestamp_image now t
        exact ⟨m, ht.trans hm⟩
      refine ⟨?_, hmsgts⟩
      obtain ⟨m, hm⟩ := hmsgts lm (List.mem_of_mem_getLast? hlast)
      exact ⟨m, hts.trans hm⟩

theorem partMessages_timestamp (role t : String) (ps : List JsPart) :
    ∀ msg ∈ partMessages role t ps, msg.timestamp = t := by
  intro msg hm
  rw [partMessages, List.mem_filterMap] at hm
  obtain ⟨p, _, hp⟩ := hm
  cases hx : partText p with
  | none => rw [hx] at hp; simp at hp
  | some txt =>
    rw [hx] at hp
    simp only [Option.map_some'] at hp
    cases hp
    rfl

theorem processLine_messages (nowIso : String) (st : PState) (l : Option JsonlLine) :
    ∀ msg ∈ (processLine nowIso st l).messages,
      msg ∈ st.messages ∨ msg.timestamp = nowIso ∨
        ∃ d, l = some d ∧ ¬ lineTsString d = "" ∧ msg.timestamp = lineTsString d := by
  intro msg hm
  cases l with
  | none => exact Or.inl hm
  | some d =>
    unfold processLine at hm
    dsimp only at hm
    cases hrole : lineRole d with
    | none =>
      rw [hrole] at hm
      exact Or.inl hm
    | some role =>
      rw [hrole] at hm
      dsimp only at hm
      by_cases hct : contentTruthy d.content = true
      · rw [if_pos hct] at hm
        dsimp only at hm
        rw [List.mem_append] at hm
        rcases hm with h | h
        · exact Or.inl h
        · have hts2 := partMessages_timestamp role _ _ msg h
          by_cases hts : ¬ lineTsString d = ""
          · rw [if_pos hts] at hts2
            exact Or.inr (Or.inr ⟨d, rfl, hts, hts2⟩)
          · rw [if_neg hts] at hts2
            exact Or.inr (Or.inl hts2)
      · rw [if_neg hct] at hm
        exact Or.inl hm

theorem processLine_ts (nowIso : String) (st : PState) (l : Option JsonlLine) :
    ((processLine nowIso st l).firstTs = st.firstTs ∨
      ∃ d, l = some d ∧ (processLine nowIso st l).firstTs = lineTsString d) ∧
    ((processLine nowIso st l).lastTs = st.lastTs ∨
      ∃ d, l = some d ∧ (processLine nowIso st l).lastTs = lineTsString d) := by
  cases l with
  | none => exact ⟨Or.inl rfl, Or.inl rfl⟩
  | some d =>
    unfold processLine
    dsimp only
    cases hrole : lineRole d with
    | none => exact ⟨Or.inl rfl, Or.inl rfl⟩
    | some role =>
      dsimp only
      by_cases hct : contentTruthy d.content = true
      · rw [if_pos hct]
        constructor
        · by_cases hf : st.firstTs = ""
          · right
            exact ⟨d, rfl, by dsimp only; rw [if_pos hf]⟩
          · left
            dsimp only
            rw [if_neg hf]
        · right
          exact ⟨d, rfl, rfl⟩
      · rw [if_neg hct]
        exact ⟨Or.inl rfl, Or.inl rfl⟩

theorem foldl_processLine_inv (nowIso : String) (lines : List (Option JsonlLine)) :
    ∀ (ls : List (Option JsonlLine)) (st : PState),
      (∀ l ∈ ls, l ∈ lines) →
      (∀ msg ∈ st.messages, msg.timestamp = nowIso ∨
        ∃ d, some d ∈ lines ∧ ¬ lineTsString d = "" ∧ msg.timestamp = lineTsString d) →
      (st.firstTs = "" ∨ ∃ d, some d ∈ lines ∧ st.firstTs = lineTsString d) →
      (st.lastTs = "" ∨ ∃ d, some d ∈ lines ∧ st.lastTs = lineTsString d) →
      ((∀ msg ∈ (ls.foldl (processLine nowIso) st).messages, msg.timestamp = nowIso ∨
          ∃ d, some d ∈ lines ∧ ¬ lineTsString d = "" ∧ msg.timestamp = lineTsString d) ∧
        ((ls.foldl (processLine nowIso) st).firstTs = "" ∨
          ∃ d, some d ∈ lines ∧ (ls.foldl (processLine nowIso) st).firstTs = lineTsString d) ∧
        ((ls.foldl (processLine nowIso) st).lastTs = "" ∨
          ∃ d, some d ∈ lines ∧ (ls.foldl (processLine nowIso) st).lastTs = lineTsString d)) := by
  intro ls
  induction ls with
  | nil => intro st _ h1 h2 h3; exact ⟨h1, h2, h3⟩
  | cons l rest ih =>
    intro st hsub h1 h2 h3
    rw [List.foldl_cons]
    have hlin : l ∈ lines := hsub l (List.mem_cons_self l rest)
    have hsub' : ∀ x ∈ rest, x ∈ lines := fun x hx => hsub x (List.mem_cons_of_mem _ hx)
    refine ih (processLine nowIso st l) hsub' ?_ ?_ ?_
    · intro msg hm
      rcases processLine_messages nowIso st l msg hm with h | h | h
      · exact h1 msg h
      · exact Or.inl h
      · obtain ⟨d, hd, hne, hts⟩ := h
        exact Or.inr ⟨d, hd ▸ hlin, hne, hts⟩
    · rcases (processLine_ts nowIso st l).1 with h | h
      · rw [h]; exact h2
      · obtain ⟨d, hd, hts⟩ := h
        by_cases hde : lineTsString d = ""
        · left; rw [hts, hde]
        · right; exact ⟨d, hd ▸ hlin, hts⟩
    · rcases (processLine_ts nowIso st l).2 with h | h
      · rw [h]; exact h3
      · obtain ⟨d, hd, hts⟩ := h
        by_cases hde : lineTsString d = ""
        · left; rw [hts, hde]
        · right; exact ⟨d, hd ▸ hlin, hts⟩

theorem parseSessionFile_timestamps (f pp : String) (lines : List (Option JsonlLine))
    (now : Nat) (h : ChatHistory) (hp : parseSessionFile f pp lines now = some h) :
    (∀ msg ∈ h.messages, msg.timestamp = isoString now ∨
      ∃ d, some d ∈ lines ∧ ¬ lineTsString d = "" ∧ msg.timestamp = lineTsString d) ∧
    (h.timestamp = isoString now ∨
      ∃ d, some d ∈ lines ∧ ¬ lineTsString d = "" ∧ h.timestamp = lineTsString d) := by
  unfold parseSessionFile at hp
  by_cases he : lines.isEmpty
  · rw [if_pos he] at hp; exact absurd hp (by simp)
  · rw [if_neg he] at hp
    dsimp only at hp
    cases hp
    have key := foldl_processLine_inv (isoString now) lines lines
      ⟨[], f, "", "", ""⟩ (fun l hl => hl) (by simp) (Or.inl rfl) (Or.inl rfl)
    obtain ⟨k1, k2, k3⟩ := key
    refine ⟨k1, ?_⟩
    dsimp only
    by_cases hl : ¬ (lines.foldl (processLine (isoString now)) ⟨[], f, "", "", ""⟩).lastTs = ""
    · rw [if_pos hl]
      rcases k3 with h | h
      · exact absurd h hl
      · obtain ⟨d, hd, hts⟩ := h
        by_cases hde : lineTsString d = ""
        · exact absurd (hts.trans hde) hl
        · exact Or.inr ⟨d, hd, hde, hts⟩
    · rw [if_neg hl]
      by_cases hf2 : ¬ (lines.foldl (processLine (isoString now)) ⟨[], f, "", "", ""⟩).firstTs = ""
      · rw [if_pos hf2]
        rcases k2 with h | h
        · exact absurd h hf2
        · obtain ⟨d, hd, hts⟩ := h
          by_cases hde : lineTsString d = ""
          · exact absurd (hts.trans hde) hf2
          · exact Or.inr ⟨d, hd, hde, hts⟩
      · rw [if_neg hf2]
        exact Or.inl rfl

/-- C1 (counterexample): the Claude Code reader passes a present but
corrupt source timestamp through verbatim instead of substituting the
extraction wall-clock time: a record with timestamp `"garbage"` yields
a Message (and a Session) whose timestamp is the non-ISO string
`"garbage"`, not the wall-clock ISO time. -/
theorem timestamps_corrupt_passthrough_counterexample :
    (parseSessionFile "f" "" [some ⟨some "user", some (.single (.str "hi")),
        some (.str "garbage"), none, none⟩] 1700000000000).map
      (fun h => h.messages.map (fun m => m.timestamp)) = some ["garbage"] ∧
    (parseSessionFile "f" "" [some ⟨some "user", some (.single (.str "hi")),
        some (.str "garbage"), none, none⟩] 1700000000000).map
      (fun h => h.timestamp) = some "garbage" ∧
    parseIso8601 "garbage" = none ∧
    ¬ ("garbage" : String) = isoString 1700000000000 :=
  ⟨by decide, by decide, by decide, by decide⟩

/-- C1 (amended): every timestamp the Cursor pipelines emit (session
and message level) is the canonical ISO rendering of some instant; in
the Claude Code reader a message or session timestamp is the wall-clock
ISO time exactly when no (truthy) source timestamp was seen, and
otherwise is some line's source timestamp string passed through
verbatim; and `normalizeTimestamp` always renders either the wall
clock, a plausible post-2000 instant, or the instant an ISO-parseable
source string itself denotes (so an epoch-zero date can only arise from
an epoch source value). -/
theorem timestamps_valid_or_passthrough (fmt : StorageFormat)
    (cr : List (String × Option ComposerData)) (ir : Option (List ItemComposer))
    (br : List (String × Option BubbleData)) (ws : List WorkspaceEntry)
    (now : Nat) (f pp : String) (lines : List (Option JsonlLine)) :
    (∀ conv ∈ readCursorHistories fmt cr ir br ws now,
      (∃ m, conv.timestamp = isoString m) ∧
      ∀ msg ∈ conv.messages, ∃ m, msg.timestamp = isoString m) ∧
    (∀ h, parseSessionFile f pp lines now = some h →
      (∀ msg ∈ h.messages, msg.timestamp = isoString now ∨
        ∃ d, some d ∈ lines ∧ ¬ lineTsString d = "" ∧ msg.timestamp = lineTsString d) ∧
      (h.timestamp = isoString now ∨
        ∃ d, some d ∈ lines ∧ ¬ lineTsString d = "" ∧ h.timestamp = lineTsString d)) ∧
    (∀ t, ∃ m, normalizeTimestamp now t = isoString m ∧
      (m = now ∨ 946684800000 < m ∨ ∃ s, t = some (.str s) ∧ parseIso8601 s = some m)) :=
  ⟨readCursorHistories_timestamps fmt cr ir br ws now,
   fun h hp => parseSessionFile_timestamps f pp lines now h hp,
   fun t => normalizeTimestamp_image now t⟩

/-- Witness for C1: a concrete Cursor conversation whose timestamps are
canonical ISO renderings, and a concrete Claude Code artifact whose
corrupt source timestamp `"garbage"` is passed through verbatim. -/
theorem timestamps_valid_or_passthrough_witness :
    ((∃ m, ("2023-11-14T22:13:20.500Z" : String) = isoString m) ∧
      ∀ msg ∈ [(⟨"b1", "user", "hi", "2023-11-14T22:13:20.000Z",
          some "c1", some "b1", none, none⟩ : CursorMessage)],
        ∃ m, msg.timestamp = isoString m) ∧
    ((∀ msg ∈ [(⟨"hi", "user", "garbage"⟩ : ChatMessage)],
        msg.timestamp = isoString 5 ∨
          ∃ d, some d ∈ [some (⟨some "user", some (.single (.str "hi")),
              some (.str "garbage"), none, none⟩ : JsonlLine)] ∧
            ¬ lineTsString d = "" ∧ msg.timestamp = lineTsString d) ∧
      (("garbage" : String) = isoString 5 ∨
        ∃ d, some d ∈ [some (⟨some "user", some (.single (.str "hi")),
            some (.str "garbage"), none, none⟩ : JsonlLine)] ∧
          ¬ lineTsString d = "" ∧ ("garbage" : String) = lineTsString d)) := by
  have T := timestamps_valid_or_passthrough .cursorDiskKV
    [("c1", some ⟨some [⟨some 1, "b1", some "hi", none, none, none⟩],
      some (.num 1700000000000), some (.num 1700000000500), none, none, none⟩)]
    none [] [] 5 "f" ""
    [some ⟨some "user", some (.single (.str "hi")), some (.str "garbage"), none, none⟩]
  exact ⟨T.1 ⟨"c1", "2023-11-14T22:13:20.500Z",
      [⟨"b1", "user", "hi", "2023-11-14T22:13:20.000Z", some "c1", some "b1", none, none⟩],
      "composer", none, none, none, none, none, "cursor-composer"⟩ (by decide),
    T.2.1 ⟨"f", "garbage", [⟨"hi", "user", "garbage"⟩], "claude_code", "", none, none⟩
      (by decide)⟩

theorem mem_setAdd (l : List String) (x w : String) :
    w ∈ setAdd l x ↔ w ∈ l ∨ w = x := by
  unfold setAdd
  by_cases hc : l.contains x
  · rw [if_pos hc]
    constructor
    · exact Or.inl
    · rintro (h | h)
      · exact h
      · subst h; exact List.mem_of_elem_eq_true hc
  · rw [if_neg hc]
    rw [List.mem_append, List.mem_singleton]

theorem updateAcc_counts (acc : ProjAcc) (conv : CursorConversation) :
    (updateAcc acc conv).composerCount =
      acc.composerCount + (if conv.conversationType = "composer" then 1 else 0) ∧
    (updateAcc acc conv).copilotSessionCount =
      acc.copilotSessionCount +
        (if conv.conversationType = "composer" then 0
         else if conv.conversationType = "copilot" then 1 else 0) := by
  unfold updateAcc
  rcases hw : conv.workspaceId with _ | w0 <;>
    dsimp only <;> split_ifs <;> constructor <;> simp

theorem updateAcc_wsIds_mem (acc : ProjAcc) (conv : CursorConversation) (w : String) :
    w ∈ (updateAcc acc conv).workspaceIds ↔
      w ∈ acc.workspaceIds ∨ ∃ w0, conv.workspaceId = some w0 ∧ ¬ w0 = "" ∧ w = w0 := by
  unfold updateAcc
  rcases hw : conv.workspaceId with _ | w0 <;> dsimp only <;> split_ifs <;>
    simp_all [mem_setAdd]

theorem updateAcc_last (acc : ProjAcc) (conv : CursorConversation) :
    (updateAcc acc conv).lastActivity =
      match parseIso8601 conv.timestamp, acc.lastActivity with
      | some c, some l => if l < c then some c else some l
      | _, _ => acc.lastActivity := by
  unfold updateAcc
  rcases hw : conv.workspaceId with _ | w0 <;> dsimp only <;> split_ifs <;> rfl

theorem projStep_new (conv : CursorConversation) (pp pn : String)
    (hpath : conv.projectPath = some pp) (hname : conv.projectName = some pn)
    (hpp : ¬ pp = "") (hpn : ¬ pn = "") :
    projStep [] conv =
      [(pp, updateAcc ⟨pn, pp, [], 0, 0, parseIso8601 conv.timestamp⟩ conv)] := by
  unfold projStep
  rw [hpath, hname]
  dsimp only
  rw [if_pos ⟨hpp, hpn⟩]
  simp

theorem projStep_existing (m : List (String × ProjAcc)) (conv : CursorConversation)
    (pp pn : String) (hpath : conv.projectPath = some pp) (hname : conv.projectName = some pn)
    (hpp : ¬ pp = "") (hpn : ¬ pn = "")
    (hmem : m.any (fun kv => kv.1 == pp) = true) :
    projStep m conv = m.map (fun kv => if kv.1 == pp then (kv.1, updateAcc kv.2 conv) else kv) := by
  unfold projStep
  rw [hpath, hname]
  dsimp only
  rw [if_pos ⟨hpp, hpn⟩, if_pos hmem]

theorem extractProjects_pair (A B : CursorConversation) (pp na nb : String)
    (hApath : A.projectPath = some pp) (hAname : A.projectName = some na)
    (hBpath : B.projectPath = some pp) (hBname : B.projectName = some nb)
    (hpp : ¬ pp = "") (hna : ¬ na = "") (hnb : ¬ nb = "") :
    extractProjectsFromConversations [A, B] =
      [{ name := (updateAcc (updateAcc ⟨na, pp, [], 0, 0, parseIso8601 A.timestamp⟩ A) B).name
         path := (updateAcc (updateAcc ⟨na, pp, [], 0, 0, parseIso8601 A.timestamp⟩ A) B).path
         workspaceIds :=
           (updateAcc (updateAcc ⟨na, pp, [], 0, 0, parseIso8601 A.timestamp⟩ A) B).workspaceIds
         composerCount :=
           (updateAcc (updateAcc ⟨na, pp, [], 0, 0, parseIso8601 A.timestamp⟩ A) B).composerCount
         copilotSessionCount :=
           (updateAcc (updateAcc ⟨na, pp, [], 0, 0, parseIso8601 A.timestamp⟩ A) B).copilotSessionCount
         lastActivity :=
           ((updateAcc (updateAcc ⟨na, pp, [], 0, 0, parseIso8601 A.timestamp⟩ A) B).lastActivity).map
             isoString }] := by
  unfold extractProjectsFromConversations
  rw [List.foldl_cons, List.foldl_cons, List.foldl_nil,
    projStep_new A pp na hApath hAname hpp hna,
    projStep_existing _ B pp nb hBpath hBname hpp hnb (by simp)]
  simp

theorem mergeProjects_pair (cp : CursorProjectInfo) (clp : ClaudeProjectInfo)
    (hpath : cp.path = clp.path) :
    mergeProjects [cp] [clp] =
      [⟨cp.name, cp.path, cp.workspaceIds, cp.composerCount, cp.copilotSessionCount,
        clp.claudeCodeSessionCount,
        if strLt cp.lastActivity clp.lastActivity then clp.lastActivity
        else cp.lastActivity⟩] := by
  rcases cp with ⟨cpn, cpp, cpw, cpc, cpcs, cpl⟩
  rcases clp with ⟨cln, clpth, clw, clc, cll⟩
  dsimp only at hpath ⊢
  subst hpath
  simp [mergeProjects, mapSet]

theorem seed_lastActivity (A : CursorConversation) (pp pn : String) (ta : Nat)
    (hta : parseIso8601 A.timestamp = some ta) :
    (updateAcc (⟨pn, pp, [], 0, 0, parseIso8601 A.timestamp⟩ : ProjAcc) A).lastActivity =
      some ta := by
  rw [updateAcc_last]
  dsimp only
  rw [hta]
  show (if ta < ta then some ta else some ta) = some ta
  rw [if_neg (lt_irrefl ta)]

theorem second_lastActivity (A B : CursorConversation) (pp pn : String) (ta tb : Nat)
    (hta : parseIso8601 A.timestamp = some ta) (htb : parseIso8601 B.timestamp = some tb) :
    (updateAcc (updateAcc (⟨pn, pp, [], 0, 0, parseIso8601 A.timestamp⟩ : ProjAcc) A) B).lastActivity =
      some (max ta tb) := by
  rw [updateAcc_last, seed_lastActivity A pp pn ta hta, htb]
  show (if ta < tb then some tb else some ta) = some (max ta tb)
  rcases Nat.lt_or_ge ta tb with h | h
  · rw [if_pos h]
    congr 1
    omega
  · rw [if_neg (by omega)]
    congr 1
    omega

/-- C9: project aggregation is order-insensitive. Aggregating the same
two conversations for one path in either order yields the same
per-source counts, the same set of workspace ids, and the same
`lastActivity`, namely the maximum of the two ISO timestamps; and
`mergeProjects` keeps each source's counter (never double-counting) and
takes the later `lastActivity` (JS string comparison) when a Cursor and
a Claude Code record share a path. -/
theorem project_merge_commutative (A B : CursorConversation) (pp na nb : String)
    (ta tb : Nat)
    (hApath : A.projectPath = some pp) (hAname : A.projectName = some na)
    (hBpath : B.projectPath = some pp) (hBname : B.projectName = some nb)
    (hpp : ¬ pp = "") (hna : ¬ na = "") (hnb : ¬ nb = "")
    (hta : parseIso8601 A.timestamp = some ta) (htb : parseIso8601 B.timestamp = some tb) :
    (∃ P Q, extractProjectsFromConversations [A, B] = [P] ∧
      extractProjectsFromConversations [B, A] = [Q] ∧
      P.composerCount = Q.composerCount ∧
      P.copilotSessionCount = Q.copilotSessionCount ∧
      (∀ w, w ∈ P.workspaceIds ↔ w ∈ Q.workspaceIds) ∧
      P.lastActivity = some (isoString (max ta tb)) ∧
      Q.lastActivity = some (isoString (max ta tb))) ∧
    (∀ (cp : CursorProjectInfo) (clp : ClaudeProjectInfo), cp.path = clp.path →
      mergeProjects [cp] [clp] =
        [⟨cp.name, cp.path, cp.workspaceIds, cp.composerCount, cp.copilotSessionCount,
          clp.claudeCodeSessionCount,
          if strLt cp.lastActivity clp.lastActivity then clp.lastActivity
          else cp.lastActivity⟩]) := by
  refine ⟨?_, fun cp clp h => mergeProjects_pair cp clp h⟩
  refine ⟨_, _, extractProjects_pair A B pp na nb hApath hAname hBpath hBname hpp hna hnb,
    extractProjects_pair B A pp nb na hBpath hBname hApath hAname hpp hnb hna,
    ?_, ?_, ?_, ?_, ?_⟩
  · dsimp only
    rw [(updateAcc_counts _ B).1, (updateAcc_counts _ A).1,
      (updateAcc_counts _ A).1, (updateAcc_counts _ B).1]
    dsimp only
    omega
  · dsimp only
    rw [(updateAcc_counts _ B).2, (updateAcc_counts _ A).2,
      (updateAcc_counts _ A).2, (updateAcc_counts _ B).2]
    dsimp only
    omega
  · intro w
    dsimp only
    rw [updateAcc_wsIds_mem, updateAcc_wsIds_mem, updateAcc_wsIds_mem, updateAcc_wsIds_mem]
    dsimp only
    simp only [List.not_mem_nil, false_or]
    exact or_comm
  · dsimp only
    rw [second_lastActivity A B pp na ta tb hta htb]
    rfl
  · dsimp only
    rw [second_lastActivity B A pp nb tb ta htb hta, Nat.max_comm]
    rfl

/-- Witness for C9: two concrete conversations for the path `/x/p`
aggregated in both orders, and a concrete same-path Cursor/Claude pair
for `mergeProjects`. -/
theorem project_merge_commutative_witness :
    (∃ P Q, extractProjectsFromConversations
        [⟨"a", "2024-01-15T12:00:00.000Z", [], "composer", none, some "w1",
          some "p", some "/x/p", none, "cursor-composer"⟩,
         ⟨"b", "2024-02-20T00:00:00.000Z", [], "copilot", none, some "w2",
          some "p", some "/x/p", none, "cursor-copilot"⟩] = [P] ∧
      extractProjectsFromConversations
        [⟨"b", "2024-02-20T00:00:00.000Z", [], "copilot", none, some "w2",
          some "p", some "/x/p", none, "cursor-copilot"⟩,
         ⟨"a", "2024-01-15T12:00:00.000Z", [], "composer", none, some "w1",
          some "p", some "/x/p", none, "cursor-composer"⟩] = [Q] ∧
      P.composerCount = Q.composerCount ∧
      P.copilotSessionCount = Q.copilotSessionCount ∧
      (∀ w, w ∈ P.workspaceIds ↔ w ∈ Q.workspaceIds) ∧
      P.lastActivity = some (isoString (max 1705320000000 1708387200000)) ∧
      Q.lastActivity = some (isoString (max 1705320000000 1708387200000))) ∧
    (∀ (cp : CursorProjectInfo) (clp : ClaudeProjectInfo), cp.path = clp.path →
      mergeProjects [cp] [clp] =
        [⟨cp.name, cp.path, cp.workspaceIds, cp.composerCount, cp.copilotSessionCount,
          clp.claudeCodeSessionCount,
          if strLt cp.lastActivity clp.lastActivity then clp.lastActivity
          else cp.lastActivity⟩]) :=
  project_merge_commutative
    ⟨"a", "2024-01-15T12:00:00.000Z", [], "composer", none, some "w1",
      some "p", some "/x/p", none, "cursor-composer"⟩
    ⟨"b", "2024-02-20T00:00:00.000Z", [], "copilot", none, some "w2",
      some "p", some "/x/p", none, "cursor-copilot"⟩
    "/x/p" "p" "p" 1705320000000 1708387200000
    (by decide) (by decide) (by decide) (by decide) (by decide) (by decide) (by decide)
    (by decide) (by decide)
